import Mathlib

/-!
# CamVision update client: piece assembly and session state machine

A shallow embedding of `UpdateClient/src/Client.cpp` (`Client::MessageLoop`,
`Client::Reset`, `Client::UpdateProgress`), of `Core::RingBuffer` and of
`LinuxSocket::RecvLarge`, together with the properties that the specification states
about them.

Unsigned 32-bit arithmetic is rendered on `Nat` with an explicit `% U32` at the
places where the C++ expression can wrap; the millisecond clocks are `Int`.
-/

namespace CamVision

/-- Modulus of the `uint32` fields. -/
def U32 : Nat := 2 ^ 32

/-- Wire-format constants and message sizes.  Their declarations (`Client.h` and the
message header) are not among the sources at hand, so they are parameters of the model. -/
structure Consts where
  PIECE_BYTES : Nat
  MAX_REQUESTS : Nat
  sizeof_header_t : Nat
  sizeof_ServerVersionInfoMessage : Nat
  sizeof_ServerUpdateBeginMessage : Nat
  sizeof_ServerUpdatePieceMessage : Nat
  sizeof_ServerUpdateTokenMessage : Nat
deriving DecidableEq, Repr

/-- Tags of `header_t::Type`; `UNKNOWN` stands for any other value read off the wire. -/
inductive MessageType where
  | CLIENT_REQUEST_VERSION
  | SERVER_RECEIVE_VERSION
  | CLIENT_UPDATE_BEGIN
  | SERVER_UPDATE_BEGIN
  | CLIENT_UPDATE_PIECE
  | SERVER_UPDATE_PIECE
  | SERVER_UPDATE_TOKEN
  | UNKNOWN (raw : Nat)
deriving DecidableEq, Repr

/-- Status codes of `ClientStatusCode`. -/
inductive ClientStatusCode where
  | NONE
  | UP_TO_DATE
  | NEEDS_UPDATE
  | BAD_SIG
  | BAD_WRITE
deriving DecidableEq, Repr

/-- Status record `m_Status`. -/
structure ClientStatus where
  Bytes : Nat
  Total : Nat
  Code : ClientStatusCode
deriving DecidableEq, Repr

/-- Public-key blob: explicit length plus the fixed data array. -/
structure PublicKey where
  Size : Nat
  Data : List Nat
deriving DecidableEq, Repr

/-- Modelled from the spec: `Core::Buffer` (Cam-Core, its declaration is not among the
sources at hand), the owned byte storage behind the payload buffer and the piece bitmap.
`Ptr = none` is the released buffer; an allocated buffer holds its bytes, and `Size` is
their number. -/
structure Buffer where
  Ptr : Option (List Nat)
deriving DecidableEq, Repr

/-- Number of bytes the buffer holds (`0` when released). -/
def Buffer.Size (b : Buffer) : Nat :=
  match b.Ptr with
  | none => 0
  | some d => d.length

/-- Modelled from the spec: `Core::Buffer::Free` releases the storage. -/
def Buffer.Free (_b : Buffer) : Buffer := ⟨none⟩

/-- Modelled from the spec: `Core::Buffer::Alloc(size)` drops what the buffer held; when
the allocation succeeds (`ok`) the buffer holds `size` zero bytes, otherwise it is left
released and `false` is returned. -/
def Buffer.Alloc (_b : Buffer) (size : Nat) (ok : Bool) : Buffer × Bool :=
  if ok then (⟨some (List.replicate size 0)⟩, true) else (⟨none⟩, false)

/-- Read `Ptr[i]`. -/
def Buffer.get (b : Buffer) (i : Nat) : Nat :=
  match b.Ptr with
  | none => 0
  | some d => d.getD i 0

/-- Store `Ptr[i] = v`. -/
def Buffer.set (b : Buffer) (i : Nat) (v : Nat) : Buffer :=
  match b.Ptr with
  | none => ⟨none⟩
  | some d => ⟨some (d.set i v)⟩

/-- The bytes `src` laid over `dst` from position `pos` on, as `memcpy(dst + pos, src, n)`
does with `n = src.length`. -/
def memcpy (dst : List Nat) (pos : Nat) (src : List Nat) : List Nat :=
  dst.take pos ++ src ++ dst.drop (pos + src.length)

/-- Copy `src` into the buffer at `Ptr + pos`. -/
def Buffer.write (b : Buffer) (pos : Nat) (src : List Nat) : Buffer :=
  match b.Ptr with
  | none => ⟨none⟩
  | some d => ⟨some (memcpy d pos src)⟩

/-- The fields of `Client` that the protocol engine reads or writes. -/
structure Client where
  m_Host : Nat
  m_PublicKey : PublicKey
  m_UpdateData : Buffer
  m_UpdatePieces : Buffer
  m_UpdateSignature : List Nat
  m_LastUpdateMS : Int
  m_LastPieceMS : Int
  m_ClientToken : Nat
  m_ServerToken : Nat
  m_LocalVersion : Nat
  m_ClientVersion : Nat
  m_Status : ClientStatus
  m_IsFinished : Bool
  m_IsUpdating : Bool
  m_UpdateIdx : Nat
deriving DecidableEq, Repr

/-- One result of `m_Socket->Recv(BUF, sizeof(BUF), &addr)`: the sender, the returned
length, and the contents of `BUF` as the handlers read them through the message structs.
`Data` are the bytes of `BUF` that follow `sizeof(ServerUpdatePieceMessage)`. -/
structure Datagram where
  addr : Nat
  len : Int
  Type_ : MessageType
  Version : Nat
  PublicKey : PublicKey
  UpdateSize : Nat
  UpdateSignature : List Nat
  ClientToken : Nat
  ServerToken : Nat
  PiecePos : Nat
  PieceSize : Nat
  Data : List Nat
deriving DecidableEq, Repr

/-- A received datagram together with the outcome of the two allocations its handling
may attempt. -/
structure Inbound where
  dgram : Datagram
  allocData : Bool
  allocPieces : Bool
deriving DecidableEq, Repr

/-- The `n` bytes found at `BUF + sizeof(ServerUpdatePieceMessage)`. -/
def Datagram.chunk (d : Datagram) (n : Nat) : List Nat :=
  (List.range n).map (fun k => d.Data.getD k 0)

/-- `Client::Reset`. -/
def Reset (s : Client) : Client :=
  { s with
    m_UpdateData := s.m_UpdateData.Free
    m_UpdatePieces := s.m_UpdatePieces.Free
    m_IsFinished := true
    m_IsUpdating := false
    m_ClientToken := 0
    m_ServerToken := 0
    m_UpdateIdx := 0 }

/-- `Client::MessageLoop`, branch `SERVER_RECEIVE_VERSION`.  The flag of the result is
`true` when control falls through to the next iteration of the receive loop and `false`
when the branch leaves `MessageLoop` by `return`. -/
def MessageLoop.SERVER_RECEIVE_VERSION (c : Consts) (s : Client) (d : Datagram) :
    Client × Bool :=
  if d.len ≠ (c.sizeof_ServerVersionInfoMessage : Int) then (s, false)
  else if d.Version ≠ s.m_LocalVersion then
    ({ s with
       m_Status := { s.m_Status with Code := ClientStatusCode.NEEDS_UPDATE }
       m_ClientVersion := d.Version
       m_PublicKey := d.PublicKey
       m_IsFinished := false }, true)
  else
    ({ s with m_Status := { s.m_Status with Code := ClientStatusCode.UP_TO_DATE } }, true)

/-- `Client::MessageLoop`, branch `SERVER_UPDATE_BEGIN`. -/
def MessageLoop.SERVER_UPDATE_BEGIN (c : Consts) (s : Client) (d : Datagram)
    (allocData allocPieces : Bool) : Client × Bool :=
  if d.len ≠ (c.sizeof_ServerUpdateBeginMessage : Int) then (s, false)
  else if d.UpdateSize = 0 ∨ d.UpdateSize ≥ 200 * 1024 * 1024 then (s, false)
  else
    let r1 := s.m_UpdateData.Alloc d.UpdateSize allocData
    if !r1.2 then ({ s with m_UpdateData := r1.1 }, false)
    else
      let r2 := s.m_UpdatePieces.Alloc
        ((d.UpdateSize + c.PIECE_BYTES - 1) % U32 / c.PIECE_BYTES) allocPieces
      if !r2.2 then ({ s with m_UpdateData := r1.1, m_UpdatePieces := r2.1 }, false)
      else
        ({ s with
           m_UpdateData := r1.1
           m_UpdatePieces := r2.1
           m_UpdateSignature := d.UpdateSignature
           m_Status := { s.m_Status with Bytes := 0, Total := r1.1.Size }
           m_IsUpdating := true
           m_IsFinished := false }, true)

/-- `Client::MessageLoop`, branch `SERVER_UPDATE_PIECE`.  The flag of the result is
`true` exactly when every check is passed and the chunk is copied. -/
def MessageLoop.SERVER_UPDATE_PIECE (c : Consts) (s : Client) (d : Datagram) :
    Client × Bool :=
  if d.len ≠ (c.sizeof_ServerUpdatePieceMessage : Int) then (s, false)
  else if !s.m_IsUpdating then (s, false)
  else if d.ClientToken ≠ s.m_ClientToken ∨ d.ServerToken ≠ s.m_ServerToken then (s, false)
  else if d.PieceSize > c.PIECE_BYTES then (s, false)
  else if d.len ≠ ((c.sizeof_ServerUpdatePieceMessage + d.PieceSize : Nat) : Int) then
    (s, false)
  else if d.PiecePos % c.PIECE_BYTES ≠ 0 then (s, false)
  else if (d.PiecePos + d.PieceSize) % U32 > s.m_UpdateData.Size then (s, false)
  else
    let idx := d.PiecePos / c.PIECE_BYTES
    if idx ≥ s.m_UpdatePieces.Size then (s, false)
    else if s.m_UpdatePieces.get idx ≠ 0 then (s, false)
    else if idx < (s.m_UpdatePieces.Size + U32 - 1) % U32 ∧ d.PieceSize ≠ c.PIECE_BYTES then
      (s, false)
    else
      ({ s with
         m_UpdateData := s.m_UpdateData.write d.PiecePos (d.chunk d.PieceSize)
         m_UpdatePieces := s.m_UpdatePieces.set idx 1
         m_Status := { s.m_Status with Bytes := (s.m_Status.Bytes + d.PieceSize) % U32 } },
       true)

/-- `Client::MessageLoop`, branch `SERVER_UPDATE_TOKEN`. -/
def MessageLoop.SERVER_UPDATE_TOKEN (c : Consts) (s : Client) (d : Datagram) :
    Client × Bool :=
  if d.len ≠ (c.sizeof_ServerUpdateTokenMessage : Int) then (s, false)
  else if d.ClientToken ≠ s.m_ClientToken then (s, false)
  else ({ s with m_ServerToken := d.ServerToken }, true)

/-- One iteration of the receive loop of `Client::MessageLoop` on a datagram that `Recv`
delivered (`len >= 0`): the new state, and whether the loop goes on (`true`) or
`MessageLoop` returns (`false`). -/
def MessageLoop.body (c : Consts) (s : Client) (i : Inbound) : Client × Bool :=
  if i.dgram.addr ≠ s.m_Host then (s, true)
  else if i.dgram.len < (c.sizeof_header_t : Int) then (s, true)
  else
    match i.dgram.Type_ with
    | MessageType.SERVER_RECEIVE_VERSION => MessageLoop.SERVER_RECEIVE_VERSION c s i.dgram
    | MessageType.SERVER_UPDATE_BEGIN =>
        MessageLoop.SERVER_UPDATE_BEGIN c s i.dgram i.allocData i.allocPieces
    | MessageType.SERVER_UPDATE_PIECE => MessageLoop.SERVER_UPDATE_PIECE c s i.dgram
    | MessageType.SERVER_UPDATE_TOKEN => MessageLoop.SERVER_UPDATE_TOKEN c s i.dgram
    | _ => (s, true)

/-- `Client::MessageLoop` over the results that successive `Recv` calls deliver.  An
exhausted queue or an entry of negative length is `Recv` reporting no data or an error.
The result is the final state and the entries that were not received. -/
def MessageLoop (c : Consts) (s : Client) : List Inbound → Client × List Inbound
  | [] => (s, [])
  | i :: rest =>
    if i.dgram.len < 0 then (s, rest)
    else
      let r := MessageLoop.body c s i
      if r.2 then MessageLoop c r.1 rest else (r.1, rest)

/-- `ClientUpdateBeginMessage` as sent. -/
structure ClientUpdateBeginMessage where
  HeaderVersion : Nat
  ClientVersion : Nat
  ClientToken : Nat
  ServerToken : Nat
deriving DecidableEq, Repr

/-- `ClientUpdatePieceMessage` as sent. -/
structure ClientUpdatePieceMessage where
  HeaderVersion : Nat
  ClientToken : Nat
  ServerToken : Nat
  PiecePos : Nat
deriving DecidableEq, Repr

/-- What one call of `Client::UpdateProgress` does to the outside: the Update Begin
Requests and Piece Requests passed to `m_Socket->Send`, in order, and the bytes handed to
`WriteFile` if it was called. -/
structure Effects where
  begins : List ClientUpdateBeginMessage
  pieces : List ClientUpdatePieceMessage
  written : Option (List Nat)
deriving DecidableEq, Repr

/-- Locals of the piece-request loop of `Client::UpdateProgress`. -/
structure Scan where
  found_missing : Bool
  end_idx : Nat
  num_pieces : Nat
  sent : List ClientUpdatePieceMessage
deriving DecidableEq, Repr

/-- The loop `for (idx = m_UpdateIdx, end = m_UpdatePieces.Size; idx < end; ++idx)` of
`Client::UpdateProgress`; `n` is the number of iterations left, `end - idx`. -/
def UpdateProgress.loop (c : Consts) (msg : ClientUpdatePieceMessage) (pieces : Buffer) :
    Nat → Nat → Scan → Scan
  | 0, _, st => st
  | n + 1, idx, st =>
    if pieces.get idx = 0 then
      let st1 : Scan :=
        { found_missing := true
          end_idx := if st.found_missing then st.end_idx else idx
          num_pieces := st.num_pieces + 1
          sent := st.sent ++ [{ msg with PiecePos := (idx * c.PIECE_BYTES) % U32 }] }
      if st1.num_pieces > c.MAX_REQUESTS then st1
      else UpdateProgress.loop c msg pieces n (idx + 1) st1
    else UpdateProgress.loop c msg pieces n (idx + 1) st

/-- `Client::UpdateProgress(now_ms, addr)`.  `token` is what `m_Crypto->GenToken()` returns
and `writeOk` what `WriteFile` returns, should the call reach them. -/
def UpdateProgress (c : Consts) (s : Client) (now_ms : Int) (token : Nat) (writeOk : Bool) :
    Client × Effects :=
  if s.m_IsFinished then (s, ⟨[], [], none⟩)
  else if !s.m_IsUpdating then
    if now_ms - s.m_LastUpdateMS ≥ 1000 then
      ({ s with
         m_LastUpdateMS := now_ms
         m_ClientToken := token
         m_Status := { s.m_Status with Code := ClientStatusCode.NONE } },
       ⟨[{ HeaderVersion := s.m_ClientVersion, ClientVersion := s.m_ClientVersion,
           ClientToken := token, ServerToken := s.m_ServerToken }], [], none⟩)
    else (s, ⟨[], [], none⟩)
  else if s.m_UpdateIdx ≥ s.m_UpdatePieces.Size then
    let file := s.m_UpdateData.Ptr.getD []
    if writeOk then
      ({ s with
         m_IsFinished := true
         m_Status := { s.m_Status with Code := ClientStatusCode.UP_TO_DATE } },
       ⟨[], [], some file⟩)
    else
      (Reset { s with m_Status := { s.m_Status with Code := ClientStatusCode.BAD_WRITE } },
       ⟨[], [], some file⟩)
  else if now_ms - s.m_LastPieceMS ≥ 100 then
    let msg : ClientUpdatePieceMessage :=
      { HeaderVersion := s.m_LocalVersion, ClientToken := s.m_ClientToken,
        ServerToken := s.m_ServerToken, PiecePos := 0 }
    let st := UpdateProgress.loop c msg s.m_UpdatePieces
      (s.m_UpdatePieces.Size - s.m_UpdateIdx) s.m_UpdateIdx ⟨false, 0, 0, []⟩
    let s1 : Client := { s with m_LastPieceMS := now_ms }
    let s2 : Client := if st.end_idx > s1.m_UpdateIdx then { s1 with m_UpdateIdx := st.end_idx } else s1
    let s3 : Client := if !st.found_missing then { s2 with m_UpdateIdx := s2.m_UpdatePieces.Size } else s2
    (s3, ⟨[], st.sent, none⟩)
  else (s, ⟨[], [], none⟩)

/-- An inbound datagram or a tick of the polling loop. -/
inductive Event where
  | datagram (i : Inbound)
  | tick (now_ms : Int) (token : Nat) (writeOk : Bool)
deriving DecidableEq, Repr

/-- The state after one event. -/
def step (c : Consts) (s : Client) : Event → Client
  | Event.datagram i => (MessageLoop c s [i]).1
  | Event.tick now_ms token writeOk => (UpdateProgress c s now_ms token writeOk).1

/-- The state after a sequence of events. -/
def run (c : Consts) (s : Client) (es : List Event) : Client :=
  es.foldl (step c) s

/-- States reachable from the constructed client: the constructor ends with `Reset()`, and
leaves every field that `Reset` does not assign as the member initialisers give it. -/
def Reachable (c : Consts) (s : Client) : Prop :=
  ∃ (s0 : Client) (es : List Event), s = run c (Reset s0) es

/-- The conjunction of the checks that `MessageLoop.SERVER_UPDATE_PIECE` makes before it copies. -/
def PieceChecks (c : Consts) (s : Client) (d : Datagram) : Prop :=
  d.len = (c.sizeof_ServerUpdatePieceMessage : Int) ∧ s.m_IsUpdating = true ∧
  d.ClientToken = s.m_ClientToken ∧ d.ServerToken = s.m_ServerToken ∧
  d.PieceSize ≤ c.PIECE_BYTES ∧
  d.len = ((c.sizeof_ServerUpdatePieceMessage + d.PieceSize : Nat) : Int) ∧
  d.PiecePos % c.PIECE_BYTES = 0 ∧
  (d.PiecePos + d.PieceSize) % U32 ≤ s.m_UpdateData.Size ∧
  d.PiecePos / c.PIECE_BYTES < s.m_UpdatePieces.Size ∧
  s.m_UpdatePieces.get (d.PiecePos / c.PIECE_BYTES) = 0 ∧
  (d.PiecePos / c.PIECE_BYTES < (s.m_UpdatePieces.Size + U32 - 1) % U32 →
    d.PieceSize = c.PIECE_BYTES)

/-- The state that the copy at the end of `MessageLoop.SERVER_UPDATE_PIECE` leaves. -/
def pieceStored (c : Consts) (s : Client) (d : Datagram) : Client :=
  { s with
    m_UpdateData := s.m_UpdateData.write d.PiecePos (d.chunk d.PieceSize)
    m_UpdatePieces := s.m_UpdatePieces.set (d.PiecePos / c.PIECE_BYTES) 1
    m_Status := { s.m_Status with Bytes := (s.m_Status.Bytes + d.PieceSize) % U32 } }

/-- Constants of the worked examples: PIECE_BYTES = 400, MAX_REQUESTS = 2. -/
def c400 : Consts :=
  { PIECE_BYTES := 400, MAX_REQUESTS := 2, sizeof_header_t := 8,
    sizeof_ServerVersionInfoMessage := 80, sizeof_ServerUpdateBeginMessage := 76,
    sizeof_ServerUpdatePieceMessage := 32, sizeof_ServerUpdateTokenMessage := 24 }

/-- An active session (update in progress, not finished) from server 1 with tokens (7, 9),
a payload buffer of `total` bytes, the bitmap `flags` and scan index `idx`. -/
def session (total : Nat) (flags : List Nat) (idx : Nat) : Client :=
  { m_Host := 1, m_PublicKey := ⟨0, []⟩,
    m_UpdateData := ⟨some (List.replicate total 0)⟩, m_UpdatePieces := ⟨some flags⟩,
    m_UpdateSignature := [], m_LastUpdateMS := 0, m_LastPieceMS := 0,
    m_ClientToken := 7, m_ServerToken := 9, m_LocalVersion := 1, m_ClientVersion := 2,
    m_Status := ⟨0, total, ClientStatusCode.NONE⟩, m_IsFinished := false, m_IsUpdating := true,
    m_UpdateIdx := idx }

/-- A Piece Data datagram from server 1 with the given tokens, offset, declared length and
physical length. -/
def pieceData (ctok stok pos size : Nat) (len : Int) : Datagram :=
  { addr := 1, len := len, Type_ := MessageType.SERVER_UPDATE_PIECE, Version := 0,
    PublicKey := ⟨0, []⟩, UpdateSize := 0, UpdateSignature := [], ClientToken := ctok,
    ServerToken := stok, PiecePos := pos, PieceSize := size, Data := List.replicate size 5 }

/-- The indices `idx ≤ j < idx + n` whose bitmap flag is unset, in increasing order. -/
def missingFrom (pieces : Buffer) (idx n : Nat) : List Nat :=
  (List.range' idx n).filter (fun j => pieces.get j = 0)

/-- The Piece Request that the scan sends for chunk `j`. -/
def requestFor (c : Consts) (msg : ClientUpdatePieceMessage) (j : Nat) :
    ClientUpdatePieceMessage :=
  { msg with PiecePos := (j * c.PIECE_BYTES) % U32 }

/-- The Piece Request header that `UpdateProgress` prepares before the scan. -/
def requestHeader (s : Client) : ClientUpdatePieceMessage :=
  { HeaderVersion := s.m_LocalVersion, ClientToken := s.m_ClientToken,
    ServerToken := s.m_ServerToken, PiecePos := 0 }

/-- Length of the last chunk of a payload of `total` bytes, as the specification gives it:
`total mod PIECE_BYTES`, or `PIECE_BYTES` when that remainder is 0. -/
def lastChunkLen (c : Consts) (total : Nat) : Nat :=
  if total % c.PIECE_BYTES = 0 then c.PIECE_BYTES else total % c.PIECE_BYTES

/-- Field values before the constructor's `Reset()`: server address 1, local version 1,
clocks at 0. -/
def client0 : Client :=
  { m_Host := 1, m_PublicKey := ⟨0, []⟩, m_UpdateData := ⟨none⟩, m_UpdatePieces := ⟨none⟩,
    m_UpdateSignature := [], m_LastUpdateMS := 0, m_LastPieceMS := 0,
    m_ClientToken := 0, m_ServerToken := 0, m_LocalVersion := 1, m_ClientVersion := 0,
    m_Status := ⟨0, 0, ClientStatusCode.NONE⟩, m_IsFinished := false, m_IsUpdating := false,
    m_UpdateIdx := 0 }

/-- An Update Begin Reply from the server (address 1) of the right length for `c400`,
declaring `size` payload bytes. -/
def beginReply (size : Nat) : Datagram :=
  { addr := 1, len := 76, Type_ := MessageType.SERVER_UPDATE_BEGIN, Version := 0,
    PublicKey := ⟨0, []⟩, UpdateSize := size, UpdateSignature := [], ClientToken := 0,
    ServerToken := 0, PiecePos := 0, PieceSize := 0, Data := [] }

/-- An Update Begin Reply for 100 bytes, and the empty Piece Data for chunk 0 under the
tokens (0, 0) that the constructed client holds. -/
def traceOneChunk : List Event :=
  [Event.datagram ⟨beginReply 100, true, true⟩,
   Event.datagram ⟨pieceData 0 0 0 0 32, true, true⟩]

/-- The single chunk is received, a tick with the piece timer due moves the scan index to
the chunk count, and the Update Begin Reply arrives once more. -/
def traceSecondBegin : List Event :=
  traceOneChunk ++ [Event.tick 100 0 true, Event.datagram ⟨beginReply 100, true, true⟩]

/-- A Version Info from the server (address 1) of the right length for `c400`, advertising
`version`. -/
def versionInfo (version : Nat) : Datagram :=
  { addr := 1, len := 80, Type_ := MessageType.SERVER_RECEIVE_VERSION, Version := version,
    PublicKey := ⟨3, [4, 5, 6]⟩, UpdateSize := 0, UpdateSignature := [], ClientToken := 0,
    ServerToken := 0, PiecePos := 0, PieceSize := 0, Data := [] }

/-- The tick events with the given clock readings, token-generator outputs and write
results. -/
def ticks (ts : List (Int × Nat × Bool)) : List Event :=
  ts.map (fun t => Event.tick t.1 t.2.1 t.2.2)

/-- From the constructed client: the single chunk of a 100-byte update is received and a
tick with the piece timer due moves the scan index to the chunk count. -/
def traceAllReceived : List Event :=
  traceOneChunk ++ [Event.tick 100 0 true]

/-- The datagram's length differs from the one `Client::MessageLoop` requires for its tag:
the size of the message struct, and for Piece Data also that size plus the declared chunk
length.  Tags without a branch have no required length. -/
def LengthMismatch (c : Consts) (d : Datagram) : Prop :=
  match d.Type_ with
  | MessageType.SERVER_RECEIVE_VERSION => d.len ≠ (c.sizeof_ServerVersionInfoMessage : Int)
  | MessageType.SERVER_UPDATE_BEGIN => d.len ≠ (c.sizeof_ServerUpdateBeginMessage : Int)
  | MessageType.SERVER_UPDATE_PIECE =>
      d.len ≠ (c.sizeof_ServerUpdatePieceMessage : Int) ∨
      d.len ≠ ((c.sizeof_ServerUpdatePieceMessage + d.PieceSize : Nat) : Int)
  | MessageType.SERVER_UPDATE_TOKEN => d.len ≠ (c.sizeof_ServerUpdateTokenMessage : Int)
  | _ => False

/-- A Token Assignment from the server (address 1) of the right length for `c400`. -/
def tokenAssign (ctok stok : Nat) : Datagram :=
  { addr := 1, len := 24, Type_ := MessageType.SERVER_UPDATE_TOKEN, Version := 0,
    PublicKey := ⟨0, []⟩, UpdateSize := 0, UpdateSignature := [], ClientToken := ctok,
    ServerToken := stok, PiecePos := 0, PieceSize := 0, Data := [] }

/-- The state that the constructed client is in after a Version Info advertising version 2:
finished cleared, no update in progress. -/
def needsUpdate : Client :=
  (MessageLoop.body c400 (Reset client0) ⟨versionInfo 2, true, true⟩).1

/-- From the constructed client: an Update Begin Reply for 100 bytes whose payload
allocation succeeds and whose bitmap allocation fails. -/
def traceBitmapAllocFails : List Event :=
  [Event.datagram ⟨beginReply 100, true, false⟩]

/-- A Piece Data with a wrong server token, queued in front of a Token Assignment that
echoes the session's client token 7 and assigns server token 11. -/
def queueRejectedThenToken : List Inbound :=
  [⟨pieceData 7 8 800 0 32, true, true⟩, ⟨tokenAssign 7 11, true, true⟩]

/-- `Core::RingBuffer<T>`.  A slot of `m_Data` is `none` while no object lives in it
(raw storage before a placement `new`, or after the destructor call in `Pop`). -/
structure RingBuffer (α : Type) where
  m_Data : List (Option α)
  m_ReadPos : Nat
  m_WritePos : Nat
  m_Size : Nat
  m_Capacity : Nat
deriving DecidableEq, Repr

/-- The constructor `RingBuffer(uint32 capacity)`. -/
def RingBuffer.construct {α : Type} (capacity : Nat) : RingBuffer α :=
  { m_ReadPos := 0, m_WritePos := 0, m_Size := 0, m_Capacity := capacity,
    m_Data := List.replicate capacity none }

/-- `RingBuffer::Pop`. -/
def RingBuffer.Pop {α : Type} (b : RingBuffer α) : RingBuffer α :=
  { b with
    m_Data := b.m_Data.set b.m_ReadPos none
    m_ReadPos := (b.m_ReadPos + 1) % U32 % b.m_Capacity
    m_Size := (b.m_Size + U32 - 1) % U32 }

/-- `RingBuffer::Push`. -/
def RingBuffer.Push {α : Type} (b : RingBuffer α) (value : α) : RingBuffer α :=
  let b1 := if b.m_Size = b.m_Capacity then b.Pop else b
  { b1 with
    m_Data := b1.m_Data.set b1.m_WritePos (some value)
    m_WritePos := (b1.m_WritePos + 1) % U32 % b1.m_Capacity
    m_Size := (b1.m_Size + 1) % U32 }

/-- `RingBuffer::Front`: the content of `m_Data[m_ReadPos]`. -/
def RingBuffer.Front {α : Type} (b : RingBuffer α) : Option α :=
  b.m_Data.getD b.m_ReadPos none

/-- `RingBuffer::Size`. -/
def RingBuffer.Size {α : Type} (b : RingBuffer α) : Nat := b.m_Size

/-- The loop `while (m_Size != 0) Pop();` of `RingBuffer::Clear`, run for at most `fuel`
iterations beyond which the result is `none`. -/
def RingBuffer.Clear.loop {α : Type} : Nat → RingBuffer α → Option (RingBuffer α)
  | 0, b => if b.m_Size ≠ 0 then none else some b
  | fuel + 1, b => if b.m_Size ≠ 0 then RingBuffer.Clear.loop fuel b.Pop else some b

/-- `RingBuffer::Clear`, with as many iterations allowed as `m_Size` counts. -/
def RingBuffer.Clear {α : Type} (b : RingBuffer α) : Option (RingBuffer α) :=
  RingBuffer.Clear.loop b.m_Size b

/-- A call on a ring buffer. -/
inductive RingOp (α : Type) where
  | push (value : α)
  | pop
  | clear
deriving DecidableEq, Repr

/-- The buffer after one call (`none`: `Clear` did not come to an end). -/
def RingBuffer.apply {α : Type} (b : RingBuffer α) : RingOp α → Option (RingBuffer α)
  | RingOp.push v => some (b.Push v)
  | RingOp.pop => some b.Pop
  | RingOp.clear => b.Clear

/-- The buffer after a sequence of calls. -/
def RingBuffer.run {α : Type} : RingBuffer α → List (RingOp α) → Option (RingBuffer α)
  | b, [] => some b
  | b, op :: rest =>
    match b.apply op with
    | some b1 => RingBuffer.run b1 rest
    | none => none

/-- Every `Pop` of the sequence is called on a buffer with `m_Size != 0`. -/
def RingBuffer.popsOnNonEmpty {α : Type} : RingBuffer α → List (RingOp α) → Bool
  | _, [] => true
  | b, op :: rest =>
    (match op with
     | RingOp.pop => decide (b.m_Size ≠ 0)
     | _ => true) &&
    (match b.apply op with
     | some b1 => RingBuffer.popsOnNonEmpty b1 rest
     | none => true)

/-- The stored element `k` places after the read position. -/
def RingBuffer.slot {α : Type} (b : RingBuffer α) (k : Nat) : Option α :=
  b.m_Data.getD ((b.m_ReadPos + k) % b.m_Capacity) none

/-- The `m_Size` stored elements from the read position onward. -/
def RingBuffer.stored {α : Type} (b : RingBuffer α) : List (Option α) :=
  (List.range b.m_Size).map b.slot

/-- The invariant of the counters: `Size <= Capacity`, `ReadPos < Capacity`,
`WritePos < Capacity` and `WritePos = (ReadPos + Size) mod Capacity`. -/
def RingBuffer.Inv {α : Type} (b : RingBuffer α) : Prop :=
  b.m_Size ≤ b.m_Capacity ∧ b.m_ReadPos < b.m_Capacity ∧ b.m_WritePos < b.m_Capacity ∧
  b.m_WritePos = (b.m_ReadPos + b.m_Size) % b.m_Capacity

/-- The capacity-bounded FIFO of the specification, one call: `Push` appends after dropping
the oldest element when the queue already holds `c` elements, `Pop` removes the head,
`Clear` empties the queue. -/
def fifoStep {α : Type} (c : Nat) (q : List α) : RingOp α → List α
  | RingOp.push v => (if q.length = c then q.tail else q) ++ [v]
  | RingOp.pop => q.tail
  | RingOp.clear => []

/-- The capacity-bounded FIFO of the specification after a sequence of calls, from the empty
queue. -/
def fifoRun {α : Type} (c : Nat) (ops : List (RingOp α)) : List α :=
  ops.foldl (fifoStep c) []

/-- The buffer of capacity `c` represents the queue `q`. -/
def RingBuffer.Rep {α : Type} (c : Nat) (b : RingBuffer α) (q : List α) : Prop :=
  b.m_Capacity = c ∧ b.m_Data.length = c ∧ b.m_ReadPos < c ∧ b.m_Size ≤ c ∧
  b.m_WritePos = (b.m_ReadPos + b.m_Size) % c ∧ b.stored = q.map some

/-- A 32-bit pattern read as `int32`. -/
def toI32 (n : Nat) : Int :=
  if n % U32 < 2 ^ 31 then ((n % U32 : Nat) : Int) else ((n % U32 : Nat) : Int) - (U32 : Int)

/-- An `int32` converted to `uint32`. -/
def toU32 (x : Int) : Nat := (x % (U32 : Int)).toNat

/-- The `while` loop of `LinuxSocket::RecvLarge`.  `recvfrom call pos n` is what the
`call`-th `recvfrom` returns when asked for `n` bytes at `dst + pos`; the arguments after
the fuel are the number of calls made, `read_pos`, `bytes_received` and the requests
`(read_pos, chunk_size)` made so far.  The result is the final `bytes_received` and the
requests, or `none` when the fuel runs out. -/
def RecvLarge.loop (recvfrom : Nat → Int → Nat → Int) (dst_bytes : Int) :
    Nat → Nat → Int → Int → List (Int × Nat) → Option (Int × List (Int × Nat))
  | 0, _, _, _, _ => none
  | fuel + 1, call, read_pos, bytes_received, reqs =>
    if bytes_received ≠ dst_bytes then
      if read_pos ≥ dst_bytes then some (bytes_received, reqs)
      else
        let chunk_size : Nat := toU32 (if dst_bytes > 256 then 256 else dst_bytes)
        let received : Int := recvfrom call read_pos chunk_size
        if received = -1 then some (received, reqs ++ [(read_pos, chunk_size)])
        else
          let chunk_size1 : Nat :=
            if chunk_size ≠ toU32 received then toU32 received else chunk_size
          RecvLarge.loop recvfrom dst_bytes fuel (call + 1)
            (toI32 (toU32 read_pos + chunk_size1)) received (reqs ++ [(read_pos, chunk_size)])
    else some (bytes_received, reqs)

/-- `LinuxSocket::RecvLarge(dst, dst_bytes, addr)`: the returned value and the requests
`(read_pos, chunk_size)` passed to `recvfrom`. -/
def RecvLarge (recvfrom : Nat → Int → Nat → Int) (dst_bytes : Int) (fuel : Nat) :
    Option (Int × List (Int × Nat)) :=
  (RecvLarge.loop recvfrom dst_bytes fuel 0 0 0 []).map
    (fun r => (if r.1 = dst_bytes then r.1 else -1, r.2))

/-- Every `recvfrom` succeeds and delivers exactly the number of bytes asked for. -/
def exactRecv : Nat → Int → Nat → Int := fun _ _ n => (n : Int)

/-- From the constructed client: an Update Begin Reply for 100 bytes, nothing else. -/
def traceBeginOnly : List Event :=
  [Event.datagram ⟨beginReply 100, true, true⟩]

/-- Three pushes into a buffer of capacity 2, then a pop. -/
def ringOps : List (RingOp Nat) :=
  [RingOp.push 1, RingOp.push 2, RingOp.push 3, RingOp.pop]

/-! ## Lemmas on the Piece Data branch -/

theorem piece_of_checks (c : Consts) (s : Client) (d : Datagram) (h : PieceChecks c s d) :
    MessageLoop.SERVER_UPDATE_PIECE c s d = (pieceStored c s d, true) := by
  obtain ⟨a1, a2, a3, a4, a5, a6, a7, a8, a9, a10, a11⟩ := h
  unfold MessageLoop.SERVER_UPDATE_PIECE
  rw [if_neg (not_not.mpr a1), if_neg (by rw [a2]; decide),
    if_neg (by rintro (h | h); exact h a3; exact h a4), if_neg (Nat.not_lt.mpr a5),
    if_neg (not_not.mpr a6), if_neg (not_not.mpr a7), if_neg (Nat.not_lt.mpr a8)]
  dsimp only
  rw [if_neg (Nat.not_le.mpr a9), if_neg (not_not.mpr a10),
    if_neg (fun h => h.2 (a11 h.1))]
  rfl

theorem piece_of_not_checks (c : Consts) (s : Client) (d : Datagram) (h : ¬ PieceChecks c s d) :
    MessageLoop.SERVER_UPDATE_PIECE c s d = (s, false) := by
  unfold MessageLoop.SERVER_UPDATE_PIECE
  by_cases a1 : d.len ≠ (c.sizeof_ServerUpdatePieceMessage : Int)
  · rw [if_pos a1]
  rw [if_neg a1]
  by_cases a2 : (!s.m_IsUpdating) = true
  · rw [if_pos a2]
  rw [if_neg a2]
  by_cases a3 : d.ClientToken ≠ s.m_ClientToken ∨ d.ServerToken ≠ s.m_ServerToken
  · rw [if_pos a3]
  rw [if_neg a3]
  by_cases a4 : d.PieceSize > c.PIECE_BYTES
  · rw [if_pos a4]
  rw [if_neg a4]
  by_cases a5 : d.len ≠ ((c.sizeof_ServerUpdatePieceMessage + d.PieceSize : Nat) : Int)
  · rw [if_pos a5]
  rw [if_neg a5]
  by_cases a6 : d.PiecePos % c.PIECE_BYTES ≠ 0
  · rw [if_pos a6]
  rw [if_neg a6]
  by_cases a7 : (d.PiecePos + d.PieceSize) % U32 > s.m_UpdateData.Size
  · rw [if_pos a7]
  rw [if_neg a7]
  dsimp only
  by_cases a8 : d.PiecePos / c.PIECE_BYTES ≥ s.m_UpdatePieces.Size
  · rw [if_pos a8]
  rw [if_neg a8]
  by_cases a9 : s.m_UpdatePieces.get (d.PiecePos / c.PIECE_BYTES) ≠ 0
  · rw [if_pos a9]
  rw [if_neg a9]
  by_cases a10 : d.PiecePos / c.PIECE_BYTES < (s.m_UpdatePieces.Size + U32 - 1) % U32 ∧
      d.PieceSize ≠ c.PIECE_BYTES
  · rw [if_pos a10]
  exfalso
  apply h
  refine ⟨not_not.mp a1, ?_, ?_, ?_, Nat.not_lt.mp a4, not_not.mp a5, not_not.mp a6,
    Nat.not_lt.mp a7, Nat.not_le.mp a8, not_not.mp a9, ?_⟩
  · cases hu : s.m_IsUpdating
    · rw [hu] at a2; exact absurd rfl a2
    · rfl
  · by_contra hh; exact a3 (Or.inl hh)
  · by_contra hh; exact a3 (Or.inr hh)
  · intro hlt; by_contra hh; exact a10 ⟨hlt, hh⟩

theorem piece_flag_iff (c : Consts) (s : Client) (d : Datagram) :
    (MessageLoop.SERVER_UPDATE_PIECE c s d).2 = true ↔ PieceChecks c s d := by
  by_cases h : PieceChecks c s d
  · rw [piece_of_checks c s d h]; exact ⟨fun _ => h, fun _ => rfl⟩
  · rw [piece_of_not_checks c s d h]
    exact ⟨fun hf => (by cases hf), fun hc => absurd hc h⟩

theorem piece_rejected_state (c : Consts) (s : Client) (d : Datagram)
    (h : (MessageLoop.SERVER_UPDATE_PIECE c s d).2 = false) :
    (MessageLoop.SERVER_UPDATE_PIECE c s d).1 = s := by
  by_cases hc : PieceChecks c s d
  · rw [piece_of_checks c s d hc] at h; cases h
  · rw [piece_of_not_checks c s d hc]

theorem piece_accepted_size_zero (c : Consts) (s : Client) (d : Datagram)
    (h : PieceChecks c s d) : d.PieceSize = 0 := by
  obtain ⟨h1, -, -, -, -, h2, -⟩ := h
  rw [h1] at h2
  omega

theorem Buffer.get_set_self (b : Buffer) (i v : Nat) (h : i < b.Size) :
    (b.set i v).get i = v := by
  cases hb : b.Ptr with
  | none => simp [Buffer.Size, hb] at h
  | some l =>
    have hl : i < l.length := by simpa [Buffer.Size, hb] using h
    simp [Buffer.set, Buffer.get, hb, List.getD_eq_getElem?_getD, hl]

theorem Buffer.write_nil (b : Buffer) (pos : Nat) : b.write pos [] = b := by
  cases b with
  | mk p =>
    cases p with
    | none => rfl
    | some l => simp [Buffer.write, memcpy]

theorem Datagram.chunk_zero (d : Datagram) : d.chunk 0 = [] := rfl

theorem piece_twice (c : Consts) (s : Client) (d : Datagram) :
    MessageLoop.SERVER_UPDATE_PIECE c (MessageLoop.SERVER_UPDATE_PIECE c s d).1 d =
      ((MessageLoop.SERVER_UPDATE_PIECE c s d).1, false) := by
  by_cases h : PieceChecks c s d
  · rw [piece_of_checks c s d h]
    apply piece_of_not_checks
    intro h2
    obtain ⟨-, -, -, -, -, -, -, -, a9, -, -⟩ := h
    obtain ⟨-, -, -, -, -, -, -, -, -, b10, -⟩ := h2
    have := Buffer.get_set_self s.m_UpdatePieces (d.PiecePos / c.PIECE_BYTES) 1 a9
    simp only [pieceStored] at b10
    omega
  · rw [piece_of_not_checks c s d h]
    exact piece_of_not_checks c s d h

theorem piece_host (c : Consts) (s : Client) (d : Datagram) :
    (MessageLoop.SERVER_UPDATE_PIECE c s d).1.m_Host = s.m_Host := by
  by_cases h : PieceChecks c s d
  · rw [piece_of_checks c s d h]; rfl
  · rw [piece_of_not_checks c s d h]

theorem body_piece_eq (c : Consts) (s : Client) (i : Inbound)
    (ht : i.dgram.Type_ = MessageType.SERVER_UPDATE_PIECE) :
    MessageLoop.body c s i =
      if i.dgram.addr ≠ s.m_Host ∨ i.dgram.len < (c.sizeof_header_t : Int) then (s, true)
      else MessageLoop.SERVER_UPDATE_PIECE c s i.dgram := by
  unfold MessageLoop.body
  by_cases h1 : i.dgram.addr ≠ s.m_Host
  · rw [if_pos h1, if_pos (Or.inl h1)]
  rw [if_neg h1]
  by_cases h2 : i.dgram.len < (c.sizeof_header_t : Int)
  · rw [if_pos h2, if_pos (Or.inr h2)]
  rw [if_neg h2, ht, if_neg (by rintro (h | h); exact h1 h; exact h2 h)]

theorem body_piece_twice (c : Consts) (s : Client) (i : Inbound)
    (ht : i.dgram.Type_ = MessageType.SERVER_UPDATE_PIECE) :
    (MessageLoop.body c (MessageLoop.body c s i).1 i).1 = (MessageLoop.body c s i).1 := by
  rw [body_piece_eq c s i ht]
  by_cases h : i.dgram.addr ≠ s.m_Host ∨ i.dgram.len < (c.sizeof_header_t : Int)
  · rw [if_pos h]
    show (MessageLoop.body c s i).1 = s
    rw [body_piece_eq c s i ht, if_pos h]
  · rw [if_neg h, body_piece_eq _ _ i ht, piece_host, if_neg h, piece_twice]

theorem loop_one (c : Consts) (s : Client) (i : Inbound) :
    (MessageLoop c s [i]).1 = if i.dgram.len < 0 then s else (MessageLoop.body c s i).1 := by
  unfold MessageLoop
  by_cases h : i.dgram.len < 0
  · rw [if_pos h, if_pos h]
  · rw [if_neg h, if_neg h]
    dsimp only
    cases hb : (MessageLoop.body c s i).2
    · rfl
    · simp only [if_true, MessageLoop]

theorem loop_two (c : Consts) (s : Client) (i : Inbound) :
    (MessageLoop c s [i, i]).1 =
      if i.dgram.len < 0 then s
      else if (MessageLoop.body c s i).2 then (MessageLoop c (MessageLoop.body c s i).1 [i]).1
      else (MessageLoop.body c s i).1 := by
  conv_lhs => unfold MessageLoop
  by_cases h : i.dgram.len < 0
  · rw [if_pos h, if_pos h]
  · rw [if_neg h, if_neg h]
    dsimp only
    cases hb : (MessageLoop.body c s i).2
    · rfl
    · rfl

theorem body_piece_state_of_reject (c : Consts) (s : Client) (i : Inbound)
    (ht : i.dgram.Type_ = MessageType.SERVER_UPDATE_PIECE) (h : ¬ PieceChecks c s i.dgram) :
    (MessageLoop.body c s i).1 = s ∧ (MessageLoop c s [i]).1 = s := by
  have hb : (MessageLoop.body c s i).1 = s := by
    rw [body_piece_eq c s i ht]
    by_cases h1 : i.dgram.addr ≠ s.m_Host ∨ i.dgram.len < (c.sizeof_header_t : Int)
    · rw [if_pos h1]
    · rw [if_neg h1, piece_of_not_checks c s i.dgram h]
  refine ⟨hb, ?_⟩
  rw [loop_one, hb]
  exact ite_self s

/-! ## Lemmas on the piece-request scan -/

theorem missingFrom_succ (pieces : Buffer) (idx n : Nat) :
    missingFrom pieces idx (n + 1) =
      if pieces.get idx = 0 then idx :: missingFrom pieces (idx + 1) n
      else missingFrom pieces (idx + 1) n := by
  unfold missingFrom
  rw [List.range'_succ, List.filter_cons]
  by_cases h : pieces.get idx = 0
  · simp [h]
  · simp [h]

theorem loop_eq (c : Consts) (msg : ClientUpdatePieceMessage) (pieces : Buffer) :
    ∀ (n idx : Nat) (st : Scan), st.num_pieces ≤ c.MAX_REQUESTS →
      UpdateProgress.loop c msg pieces n idx st =
        { found_missing := st.found_missing || !(missingFrom pieces idx n).isEmpty
          end_idx := if st.found_missing then st.end_idx
                     else (missingFrom pieces idx n).headD st.end_idx
          num_pieces := st.num_pieces +
            ((missingFrom pieces idx n).take (c.MAX_REQUESTS + 1 - st.num_pieces)).length
          sent := st.sent ++
            ((missingFrom pieces idx n).take (c.MAX_REQUESTS + 1 - st.num_pieces)).map
              (requestFor c msg) } := by
  intro n
  induction n with
  | zero =>
    intro idx st _
    cases st
    simp [UpdateProgress.loop, missingFrom]
  | succ n ih =>
    intro idx st hst
    rw [UpdateProgress.loop, missingFrom_succ]
    by_cases hg : pieces.get idx = 0
    · rw [if_pos hg, if_pos hg]
      dsimp only
      have hk : c.MAX_REQUESTS + 1 - st.num_pieces =
          (c.MAX_REQUESTS - st.num_pieces) + 1 := by omega
      by_cases hm : st.num_pieces + 1 > c.MAX_REQUESTS
      · rw [if_pos hm]
        have h0 : c.MAX_REQUESTS - st.num_pieces = 0 := by omega
        rw [hk, h0]
        cases hf : st.found_missing <;> simp [requestFor]
      · rw [if_neg hm, ih _ _ (by simpa using Nat.not_lt.mp hm)]
        dsimp only
        have hk2 : c.MAX_REQUESTS + 1 - (st.num_pieces + 1) =
            c.MAX_REQUESTS - st.num_pieces := by omega
        rw [hk, hk2]
        cases hf : st.found_missing <;>
          simp [requestFor, Nat.add_assoc, Nat.add_comm 1]
    · rw [if_neg hg, if_neg hg, ih _ _ hst]

theorem mem_missingFrom (pieces : Buffer) (idx n j : Nat) :
    j ∈ missingFrom pieces idx n ↔ (idx ≤ j ∧ j < idx + n) ∧ pieces.get j = 0 := by
  unfold missingFrom
  rw [List.mem_filter, List.mem_range'_1]
  simp

theorem missingFrom_pairwise (pieces : Buffer) (idx n : Nat) :
    (missingFrom pieces idx n).Pairwise (· < ·) :=
  (List.pairwise_lt_range' idx n).filter _

theorem missingFrom_head_least (pieces : Buffer) (idx n j : Nat) (rest : List Nat)
    (h : missingFrom pieces idx n = j :: rest) :
    (idx ≤ j ∧ j < idx + n) ∧ pieces.get j = 0 ∧
      ∀ i, idx ≤ i → i < j → pieces.get i ≠ 0 := by
  have hj : j ∈ missingFrom pieces idx n := by rw [h]; exact List.mem_cons_self _ _
  have hmem := (mem_missingFrom pieces idx n j).1 hj
  refine ⟨hmem.1, hmem.2, ?_⟩
  intro i hi hij hz
  have hi2 : i ∈ missingFrom pieces idx n :=
    (mem_missingFrom pieces idx n i).2 ⟨⟨hi, by omega⟩, hz⟩
  have hp := missingFrom_pairwise pieces idx n
  rw [h] at hi2 hp
  rcases List.mem_cons.1 hi2 with e | e
  · omega
  · have := (List.pairwise_cons.1 hp).1 i e
    omega

theorem missingFrom_nil (pieces : Buffer) (idx n : Nat) (h : missingFrom pieces idx n = []) :
    ∀ i, idx ≤ i → i < idx + n → pieces.get i ≠ 0 := by
  intro i hi hin hz
  have : i ∈ missingFrom pieces idx n := (mem_missingFrom pieces idx n i).2 ⟨⟨hi, hin⟩, hz⟩
  rw [h] at this
  exact List.not_mem_nil _ this

theorem UpdateProgress_scan (c : Consts) (s : Client) (now_ms : Int) (token : Nat)
    (writeOk : Bool) (hfin : s.m_IsFinished = false) (hupd : s.m_IsUpdating = true)
    (hk : s.m_UpdateIdx < s.m_UpdatePieces.Size) (ht : now_ms - s.m_LastPieceMS ≥ 100) :
    UpdateProgress c s now_ms token writeOk =
      ({ s with
         m_LastPieceMS := now_ms
         m_UpdateIdx := (missingFrom s.m_UpdatePieces s.m_UpdateIdx
           (s.m_UpdatePieces.Size - s.m_UpdateIdx)).headD s.m_UpdatePieces.Size },
       ⟨[], ((missingFrom s.m_UpdatePieces s.m_UpdateIdx
           (s.m_UpdatePieces.Size - s.m_UpdateIdx)).take (c.MAX_REQUESTS + 1)).map
             (requestFor c (requestHeader s)), none⟩) := by
  unfold UpdateProgress
  rw [if_neg (by rw [hfin]; decide), if_neg (by rw [hupd]; decide),
    if_neg (Nat.not_le.mpr hk), if_pos ht]
  dsimp only
  rw [loop_eq c _ _ _ _ _ (Nat.zero_le _)]
  dsimp only
  cases hL : missingFrom s.m_UpdatePieces s.m_UpdateIdx
      (s.m_UpdatePieces.Size - s.m_UpdateIdx) with
  | nil => simp [requestHeader]
  | cons j rest =>
    have hj := (missingFrom_head_least _ _ _ _ _ hL).1.1
    by_cases hjk : j > s.m_UpdateIdx
    · simp [requestHeader, hjk]
    · have : j = s.m_UpdateIdx := by omega
      subst this
      simp [requestHeader]

theorem ceil_div_cases (T P : Nat) (hP : 0 < P) :
    (T + P - 1) / P = if T % P = 0 then T / P else T / P + 1 := by
  have hT := Nat.div_add_mod T P
  by_cases hr : T % P = 0
  · rw [if_pos hr]
    apply Nat.div_eq_of_lt_le
    · rw [Nat.mul_comm]; omega
    · rw [Nat.succ_mul, Nat.mul_comm]; omega
  · rw [if_neg hr]
    have := Nat.mod_lt T hP
    apply Nat.div_eq_of_lt_le
    · rw [Nat.add_mul, Nat.mul_comm, Nat.one_mul]; omega
    · rw [Nat.succ_mul, Nat.add_mul, Nat.mul_comm, Nat.one_mul]; omega

theorem last_chunk_remainder (c : Consts) (T pos : Nat) (hP : 0 < c.PIECE_BYTES)
    (hal : pos % c.PIECE_BYTES = 0)
    (hlast : pos / c.PIECE_BYTES + 1 = (T + c.PIECE_BYTES - 1) / c.PIECE_BYTES) :
    pos ≤ T ∧ T - pos = lastChunkLen c T := by
  have hpos : pos / c.PIECE_BYTES * c.PIECE_BYTES = pos :=
    Nat.div_mul_cancel (Nat.dvd_of_mod_eq_zero hal)
  have hT := Nat.div_add_mod T c.PIECE_BYTES
  have hr := Nat.mod_lt T hP
  rw [ceil_div_cases T _ hP] at hlast
  unfold lastChunkLen
  by_cases h0 : T % c.PIECE_BYTES = 0
  · rw [if_pos h0] at hlast ⊢
    have h1 : (pos / c.PIECE_BYTES + 1) * c.PIECE_BYTES = T / c.PIECE_BYTES * c.PIECE_BYTES := by
      rw [hlast]
    rw [Nat.add_mul, Nat.one_mul, hpos, Nat.mul_comm] at h1
    omega
  · rw [if_neg h0] at hlast ⊢
    have h1 : pos / c.PIECE_BYTES = T / c.PIECE_BYTES := by omega
    rw [h1, Nat.mul_comm] at hpos
    omega

theorem reachable_run (c : Consts) (s0 : Client) (es : List Event) :
    Reachable c (run c (Reset s0) es) := ⟨s0, es, rfl⟩

/-! ## Lemmas on the other branches and on the tick -/

theorem UpdateProgress_finished (c : Consts) (s : Client) (now_ms : Int) (token : Nat)
    (writeOk : Bool) (hfin : s.m_IsFinished = true) :
    UpdateProgress c s now_ms token writeOk = (s, ⟨[], [], none⟩) := by
  unfold UpdateProgress
  rw [if_pos hfin]

theorem UpdateProgress_write_failed (c : Consts) (s : Client) (now_ms : Int) (token : Nat)
    (hfin : s.m_IsFinished = false) (hupd : s.m_IsUpdating = true)
    (hk : s.m_UpdateIdx ≥ s.m_UpdatePieces.Size) :
    UpdateProgress c s now_ms token false =
      (Reset { s with m_Status := { s.m_Status with Code := ClientStatusCode.BAD_WRITE } },
       ⟨[], [], some (s.m_UpdateData.Ptr.getD [])⟩) := by
  unfold UpdateProgress
  rw [if_neg (by rw [hfin]; decide), if_neg (by rw [hupd]; decide), if_pos hk]
  rfl

theorem UpdateProgress_begin (c : Consts) (s : Client) (now_ms : Int) (token : Nat)
    (writeOk : Bool) (hfin : s.m_IsFinished = false) (hupd : s.m_IsUpdating = false) :
    UpdateProgress c s now_ms token writeOk =
      if now_ms - s.m_LastUpdateMS ≥ 1000 then
        ({ s with
           m_LastUpdateMS := now_ms
           m_ClientToken := token
           m_Status := { s.m_Status with Code := ClientStatusCode.NONE } },
         ⟨[{ HeaderVersion := s.m_ClientVersion, ClientVersion := s.m_ClientVersion,
             ClientToken := token, ServerToken := s.m_ServerToken }], [], none⟩)
      else (s, ⟨[], [], none⟩) := by
  unfold UpdateProgress
  rw [if_neg (by rw [hfin]; decide), if_pos (by rw [hupd]; rfl)]

theorem run_ticks_finished (c : Consts) (s : Client) (hfin : s.m_IsFinished = true)
    (ts : List (Int × Nat × Bool)) : run c s (ticks ts) = s := by
  induction ts with
  | nil => rfl
  | cons t ts ih =>
    show run c (step c s (Event.tick t.1 t.2.1 t.2.2)) (ticks ts) = s
    have : step c s (Event.tick t.1 t.2.1 t.2.2) = s := by
      show (UpdateProgress c s t.1 t.2.1 t.2.2).1 = s
      rw [UpdateProgress_finished c s _ _ _ hfin]
    rw [this, ih]

theorem body_version_eq (c : Consts) (s : Client) (i : Inbound)
    (ha : i.dgram.addr = s.m_Host) (hh : ¬ i.dgram.len < (c.sizeof_header_t : Int))
    (ht : i.dgram.Type_ = MessageType.SERVER_RECEIVE_VERSION) :
    MessageLoop.body c s i = MessageLoop.SERVER_RECEIVE_VERSION c s i.dgram := by
  unfold MessageLoop.body
  rw [if_neg (not_not.mpr ha), if_neg hh, ht]

theorem body_begin_eq (c : Consts) (s : Client) (i : Inbound)
    (ha : i.dgram.addr = s.m_Host) (hh : ¬ i.dgram.len < (c.sizeof_header_t : Int))
    (ht : i.dgram.Type_ = MessageType.SERVER_UPDATE_BEGIN) :
    MessageLoop.body c s i =
      MessageLoop.SERVER_UPDATE_BEGIN c s i.dgram i.allocData i.allocPieces := by
  unfold MessageLoop.body
  rw [if_neg (not_not.mpr ha), if_neg hh, ht]

theorem body_token_eq (c : Consts) (s : Client) (i : Inbound)
    (ha : i.dgram.addr = s.m_Host) (hh : ¬ i.dgram.len < (c.sizeof_header_t : Int))
    (ht : i.dgram.Type_ = MessageType.SERVER_UPDATE_TOKEN) :
    MessageLoop.body c s i = MessageLoop.SERVER_UPDATE_TOKEN c s i.dgram := by
  unfold MessageLoop.body
  rw [if_neg (not_not.mpr ha), if_neg hh, ht]

theorem version_differs (c : Consts) (s : Client) (d : Datagram)
    (hl : d.len = (c.sizeof_ServerVersionInfoMessage : Int)) (hv : d.Version ≠ s.m_LocalVersion) :
    MessageLoop.SERVER_RECEIVE_VERSION c s d =
      ({ s with
         m_Status := { s.m_Status with Code := ClientStatusCode.NEEDS_UPDATE }
         m_ClientVersion := d.Version
         m_PublicKey := d.PublicKey
         m_IsFinished := false }, true) := by
  unfold MessageLoop.SERVER_RECEIVE_VERSION
  rw [if_neg (not_not.mpr hl), if_pos hv]

theorem version_equal (c : Consts) (s : Client) (d : Datagram)
    (hl : d.len = (c.sizeof_ServerVersionInfoMessage : Int)) (hv : d.Version = s.m_LocalVersion) :
    MessageLoop.SERVER_RECEIVE_VERSION c s d =
      ({ s with m_Status := { s.m_Status with Code := ClientStatusCode.UP_TO_DATE } }, true) := by
  unfold MessageLoop.SERVER_RECEIVE_VERSION
  rw [if_neg (not_not.mpr hl), if_neg (not_not.mpr hv)]

theorem loop_one_of_body (c : Consts) (s : Client) (i : Inbound)
    (h : (MessageLoop.body c s i).1 = s) : (MessageLoop c s [i]).1 = s := by
  rw [loop_one, h]
  exact ite_self s

theorem begin_size_rejected (c : Consts) (s : Client) (d : Datagram) (a1 a2 : Bool)
    (hsize : d.UpdateSize = 0 ∨ d.UpdateSize ≥ 200 * 1024 * 1024) :
    MessageLoop.SERVER_UPDATE_BEGIN c s d a1 a2 = (s, false) := by
  unfold MessageLoop.SERVER_UPDATE_BEGIN
  by_cases h1 : d.len ≠ (c.sizeof_ServerUpdateBeginMessage : Int)
  · rw [if_pos h1]
  · rw [if_neg h1, if_pos hsize]

theorem begin_len_rejected (c : Consts) (s : Client) (d : Datagram) (a1 a2 : Bool)
    (hl : d.len ≠ (c.sizeof_ServerUpdateBeginMessage : Int)) :
    MessageLoop.SERVER_UPDATE_BEGIN c s d a1 a2 = (s, false) := by
  unfold MessageLoop.SERVER_UPDATE_BEGIN
  rw [if_pos hl]

theorem begin_flag_size (c : Consts) (s : Client) (d : Datagram) (a1 a2 : Bool)
    (h : (MessageLoop.SERVER_UPDATE_BEGIN c s d a1 a2).2 = true) :
    0 < d.UpdateSize ∧ d.UpdateSize < 200 * 1024 * 1024 := by
  by_cases hsize : d.UpdateSize = 0 ∨ d.UpdateSize ≥ 200 * 1024 * 1024
  · rw [begin_size_rejected c s d a1 a2 hsize] at h
    cases h
  · omega

theorem begin_accepted (c : Consts) (s : Client) (d : Datagram)
    (hl : d.len = (c.sizeof_ServerUpdateBeginMessage : Int))
    (hpos : 0 < d.UpdateSize) (hlt : d.UpdateSize < 200 * 1024 * 1024) :
    MessageLoop.SERVER_UPDATE_BEGIN c s d true true =
      ({ s with
         m_UpdateData := ⟨some (List.replicate d.UpdateSize 0)⟩
         m_UpdatePieces := ⟨some (List.replicate
           ((d.UpdateSize + c.PIECE_BYTES - 1) % U32 / c.PIECE_BYTES) 0)⟩
         m_UpdateSignature := d.UpdateSignature
         m_Status := { s.m_Status with Bytes := 0, Total := d.UpdateSize }
         m_IsUpdating := true
         m_IsFinished := false }, true) := by
  unfold MessageLoop.SERVER_UPDATE_BEGIN
  rw [if_neg (not_not.mpr hl), if_neg (by omega)]
  simp [Buffer.Alloc, Buffer.Size]

theorem body_cases (c : Consts) (s : Client) (i : Inbound) :
    MessageLoop.body c s i = (s, true) ∨
    (i.dgram.addr = s.m_Host ∧ ¬ i.dgram.len < (c.sizeof_header_t : Int) ∧
      ((i.dgram.Type_ = MessageType.SERVER_RECEIVE_VERSION ∧
          MessageLoop.body c s i = MessageLoop.SERVER_RECEIVE_VERSION c s i.dgram) ∨
       (i.dgram.Type_ = MessageType.SERVER_UPDATE_BEGIN ∧
          MessageLoop.body c s i =
            MessageLoop.SERVER_UPDATE_BEGIN c s i.dgram i.allocData i.allocPieces) ∨
       (i.dgram.Type_ = MessageType.SERVER_UPDATE_PIECE ∧
          MessageLoop.body c s i = MessageLoop.SERVER_UPDATE_PIECE c s i.dgram) ∨
       (i.dgram.Type_ = MessageType.SERVER_UPDATE_TOKEN ∧
          MessageLoop.body c s i = MessageLoop.SERVER_UPDATE_TOKEN c s i.dgram))) := by
  by_cases ha : i.dgram.addr ≠ s.m_Host
  · left; unfold MessageLoop.body; rw [if_pos ha]
  by_cases hh : i.dgram.len < (c.sizeof_header_t : Int)
  · left; unfold MessageLoop.body; rw [if_neg ha, if_pos hh]
  have ha1 : i.dgram.addr = s.m_Host := not_not.mp ha
  cases ht : i.dgram.Type_ with
  | SERVER_RECEIVE_VERSION =>
    exact Or.inr ⟨ha1, hh, Or.inl ⟨rfl, body_version_eq c s i ha1 hh ht⟩⟩
  | SERVER_UPDATE_BEGIN =>
    exact Or.inr ⟨ha1, hh, Or.inr (Or.inl ⟨rfl, body_begin_eq c s i ha1 hh ht⟩)⟩
  | SERVER_UPDATE_PIECE =>
    refine Or.inr ⟨ha1, hh, Or.inr (Or.inr (Or.inl ⟨rfl, ?_⟩))⟩
    rw [body_piece_eq c s i ht, if_neg (by rintro (h | h); exact ha h; exact hh h)]
  | SERVER_UPDATE_TOKEN =>
    exact Or.inr ⟨ha1, hh, Or.inr (Or.inr (Or.inr ⟨rfl, body_token_eq c s i ha1 hh ht⟩))⟩
  | CLIENT_REQUEST_VERSION => left; unfold MessageLoop.body; rw [if_neg ha, if_neg hh, ht]
  | CLIENT_UPDATE_BEGIN => left; unfold MessageLoop.body; rw [if_neg ha, if_neg hh, ht]
  | CLIENT_UPDATE_PIECE => left; unfold MessageLoop.body; rw [if_neg ha, if_neg hh, ht]
  | UNKNOWN raw => left; unfold MessageLoop.body; rw [if_neg ha, if_neg hh, ht]

theorem ceil_div_bounds (T P : Nat) (hP : 0 < P) :
    T ≤ (T + P - 1) / P * P ∧ (T + P - 1) / P * P < T + P := by
  have hT := Nat.div_add_mod T P
  have hr := Nat.mod_lt T hP
  rw [ceil_div_cases T P hP]
  by_cases h0 : T % P = 0
  · rw [if_pos h0, Nat.mul_comm]; omega
  · rw [if_neg h0, Nat.add_mul, Nat.one_mul, Nat.mul_comm]; omega

theorem token_len_rejected (c : Consts) (s : Client) (d : Datagram)
    (hl : d.len ≠ (c.sizeof_ServerUpdateTokenMessage : Int)) :
    MessageLoop.SERVER_UPDATE_TOKEN c s d = (s, false) := by
  unfold MessageLoop.SERVER_UPDATE_TOKEN
  rw [if_pos hl]

theorem version_len_rejected (c : Consts) (s : Client) (d : Datagram)
    (hl : d.len ≠ (c.sizeof_ServerVersionInfoMessage : Int)) :
    MessageLoop.SERVER_RECEIVE_VERSION c s d = (s, false) := by
  unfold MessageLoop.SERVER_RECEIVE_VERSION
  rw [if_pos hl]

theorem run_ticks_not_due (c : Consts) (s : Client) (hfin : s.m_IsFinished = false)
    (hupd : s.m_IsUpdating = false) (ts : List (Int × Nat × Bool))
    (h : ∀ t ∈ ts, t.1 - s.m_LastUpdateMS < 1000) : run c s (ticks ts) = s := by
  induction ts with
  | nil => rfl
  | cons t ts ih =>
    show run c (step c s (Event.tick t.1 t.2.1 t.2.2)) (ticks ts) = s
    have h1 : t.1 - s.m_LastUpdateMS < 1000 := h t (List.mem_cons_self _ _)
    have : step c s (Event.tick t.1 t.2.1 t.2.2) = s := by
      show (UpdateProgress c s t.1 t.2.1 t.2.2).1 = s
      rw [UpdateProgress_begin c s _ _ _ hfin hupd, if_neg (by omega)]
    rw [this]
    exact ih (fun t1 ht1 => h t1 (List.mem_cons_of_mem _ ht1))

/-! ## Lemmas on the ring buffer -/

theorem ring_index_ne (c R j k : Nat) (hj : j < c) (hk : k < c) (hjk : j ≠ k) :
    (R + j) % c ≠ (R + k) % c := by
  intro h
  have h1 : Nat.ModEq c (R + j) (R + k) := h
  have h2 : Nat.ModEq c j k := Nat.ModEq.add_left_cancel' R h1
  have h3 : j % c = k % c := h2
  rw [Nat.mod_eq_of_lt hj, Nat.mod_eq_of_lt hk] at h3
  exact hjk h3

theorem range_succ_map_cons {β : Type} (f : Nat → β) (n : Nat) :
    (List.range (n + 1)).map f = f 0 :: (List.range n).map (fun k => f (k + 1)) := by
  rw [List.range_succ_eq_map, List.map_cons, List.map_map]
  rfl

theorem RingBuffer.stored_length {α : Type} (b : RingBuffer α) :
    b.stored.length = b.m_Size := by
  simp [RingBuffer.stored]

theorem RingBuffer.Rep.size_eq {α : Type} {c : Nat} {b : RingBuffer α} {q : List α}
    (h : RingBuffer.Rep c b q) : b.m_Size = q.length := by
  have := congrArg List.length h.2.2.2.2.2
  rw [RingBuffer.stored_length, List.length_map] at this
  exact this

theorem RingBuffer.Rep.inv {α : Type} {c : Nat} {b : RingBuffer α} {q : List α}
    (hc : 0 < c) (h : RingBuffer.Rep c b q) : b.Inv := by
  obtain ⟨h1, -, h3, h4, h5, -⟩ := h
  unfold RingBuffer.Inv
  rw [h1]
  exact ⟨h4, h3, by rw [h5]; exact Nat.mod_lt _ hc, h5⟩

theorem RingBuffer.construct_rep {α : Type} (c : Nat) (hc : 0 < c) :
    RingBuffer.Rep c (RingBuffer.construct c : RingBuffer α) [] := by
  refine ⟨rfl, by simp [RingBuffer.construct], hc, Nat.zero_le _, ?_, rfl⟩
  show 0 = (0 + 0) % c
  rw [Nat.zero_add, Nat.zero_mod]

theorem RingBuffer.pop_rep {α : Type} {c : Nat} {b : RingBuffer α} {q : List α}
    (hU : c < U32) (h : RingBuffer.Rep c b q) (hne : b.m_Size ≠ 0) :
    RingBuffer.Rep c b.Pop q.tail ∧ b.Pop.m_Size = b.m_Size - 1 := by
  have hsz := h.size_eq
  obtain ⟨h1, h2, h3, h4, h5, h6⟩ := h
  have hc : 0 < c := by omega
  have hU' : U32 = 4294967296 := by decide
  have hR : (b.m_ReadPos + 1) % U32 % b.m_Capacity = (b.m_ReadPos + 1) % c := by
    rw [h1, Nat.mod_eq_of_lt (show b.m_ReadPos + 1 < U32 by rw [hU'] at hU ⊢; omega)]
  have hS : (b.m_Size + U32 - 1) % U32 = b.m_Size - 1 := by
    rw [hU'] at hU ⊢
    omega
  refine ⟨⟨h1, ?_, ?_, ?_, ?_, ?_⟩, hS⟩
  · show (b.m_Data.set b.m_ReadPos none).length = c
    rw [List.length_set, h2]
  · show (b.m_ReadPos + 1) % U32 % b.m_Capacity < c
    rw [hR]; exact Nat.mod_lt _ hc
  · show (b.m_Size + U32 - 1) % U32 ≤ c
    rw [hS]; omega
  · show b.m_WritePos =
      ((b.m_ReadPos + 1) % U32 % b.m_Capacity + (b.m_Size + U32 - 1) % U32) % c
    have hsum : b.m_ReadPos + 1 + (b.m_Size - 1) = b.m_ReadPos + b.m_Size := by omega
    rw [hR, hS, Nat.mod_add_mod, h5, hsum]
  · cases q with
    | nil => simp at hsz; exact absurd hsz hne
    | cons x q1 =>
      obtain ⟨n, hn⟩ : ∃ n, b.m_Size = n + 1 := ⟨b.m_Size - 1, by omega⟩
      have hst : b.stored = b.slot 0 :: (List.range n).map (fun k => b.slot (k + 1)) := by
        unfold RingBuffer.stored
        rw [hn, range_succ_map_cons]
      rw [hst, List.map_cons] at h6
      have htl := (List.cons.inj h6).2
      show (List.range ((b.m_Size + U32 - 1) % U32)).map b.Pop.slot = q1.map some
      rw [hS, hn, Nat.add_sub_cancel, ← htl]
      apply List.map_congr_left
      intro k hk
      have hk1 : k < n := List.mem_range.1 hk
      show (b.m_Data.set b.m_ReadPos none).getD
          (((b.m_ReadPos + 1) % U32 % b.m_Capacity + k) % b.m_Capacity) none =
        b.m_Data.getD ((b.m_ReadPos + (k + 1)) % b.m_Capacity) none
      rw [hR, h1, Nat.mod_add_mod]
      have hidx : b.m_ReadPos + 1 + k = b.m_ReadPos + (k + 1) := by omega
      rw [hidx]
      have hne2 : b.m_ReadPos ≠ (b.m_ReadPos + (k + 1)) % c := by
        have := ring_index_ne c b.m_ReadPos 0 (k + 1) hc (by omega) (by omega)
        rw [Nat.add_zero, Nat.mod_eq_of_lt h3] at this
        exact this
      rw [List.getD_eq_getElem?_getD, List.getD_eq_getElem?_getD, List.getElem?_set_ne hne2]

theorem RingBuffer.push_rep_not_full {α : Type} {c : Nat} {b : RingBuffer α} {q : List α}
    (hU : c < U32) (h : RingBuffer.Rep c b q) (hlt : b.m_Size < c) (v : α) :
    RingBuffer.Rep c (b.Push v) (q ++ [v]) := by
  obtain ⟨h1, h2, h3, h4, h5, h6⟩ := h
  have hc : 0 < c := by omega
  have hW : b.m_WritePos < c := by rw [h5]; exact Nat.mod_lt _ hc
  have hU' : U32 = 4294967296 := by decide
  have hP : b.Push v =
      { b with
        m_Data := b.m_Data.set b.m_WritePos (some v)
        m_WritePos := (b.m_WritePos + 1) % U32 % b.m_Capacity
        m_Size := (b.m_Size + 1) % U32 } := by
    unfold RingBuffer.Push
    rw [if_neg (by rw [h1]; omega)]
  have hWn : (b.m_WritePos + 1) % U32 % b.m_Capacity = (b.m_WritePos + 1) % c := by
    rw [h1, Nat.mod_eq_of_lt (show b.m_WritePos + 1 < U32 by rw [hU'] at hU ⊢; omega)]
  have hS : (b.m_Size + 1) % U32 = b.m_Size + 1 :=
    Nat.mod_eq_of_lt (by rw [hU'] at hU ⊢; omega)
  rw [hP]
  refine ⟨h1, ?_, h3, ?_, ?_, ?_⟩
  · show (b.m_Data.set b.m_WritePos (some v)).length = c
    rw [List.length_set, h2]
  · show (b.m_Size + 1) % U32 ≤ c
    rw [hS]; omega
  · show (b.m_WritePos + 1) % U32 % b.m_Capacity = (b.m_ReadPos + (b.m_Size + 1) % U32) % c
    rw [hWn, hS, h5, Nat.mod_add_mod, Nat.add_assoc]
  · show (List.range ((b.m_Size + 1) % U32)).map
        (fun k => (b.m_Data.set b.m_WritePos (some v)).getD
          ((b.m_ReadPos + k) % b.m_Capacity) none) = (q ++ [v]).map some
    rw [hS, List.range_succ, List.map_append, List.map_append, ← h6]
    congr 1
    · apply List.map_congr_left
      intro k hk
      have hk1 : k < b.m_Size := List.mem_range.1 hk
      have hne2 : b.m_WritePos ≠ (b.m_ReadPos + k) % b.m_Capacity := by
        rw [h5, h1]
        exact ring_index_ne c b.m_ReadPos b.m_Size k hlt (by omega) (by omega)
      show (b.m_Data.set b.m_WritePos (some v)).getD ((b.m_ReadPos + k) % b.m_Capacity) none =
        b.m_Data.getD ((b.m_ReadPos + k) % b.m_Capacity) none
      rw [List.getD_eq_getElem?_getD, List.getD_eq_getElem?_getD, List.getElem?_set_ne hne2]
    · show [(b.m_Data.set b.m_WritePos (some v)).getD
          ((b.m_ReadPos + b.m_Size) % b.m_Capacity) none] = [some v]
      rw [h1, ← h5, List.getD_eq_getElem?_getD,
        List.getElem?_set_eq_of_lt _ (by rw [h2]; exact hW)]
      rfl

theorem RingBuffer.push_rep {α : Type} {c : Nat} {b : RingBuffer α} {q : List α}
    (hc : 0 < c) (hU : c < U32) (h : RingBuffer.Rep c b q) (v : α) :
    RingBuffer.Rep c (b.Push v) (fifoStep c q (RingOp.push v)) := by
  have hsz := h.size_eq
  by_cases hfull : b.m_Size = b.m_Capacity
  · have hcap : b.m_Capacity = c := h.1
    have hne : b.m_Size ≠ 0 := by omega
    obtain ⟨hp, hps⟩ := RingBuffer.pop_rep hU h hne
    have hq : q.length = c := by omega
    have hstep : fifoStep c q (RingOp.push v) = q.tail ++ [v] := by
      show (if q.length = c then q.tail else q) ++ [v] = _
      rw [if_pos hq]
    have hpush : b.Push v = b.Pop.Push v := by
      have hpn : b.Pop.m_Size ≠ b.Pop.m_Capacity := by
        rw [hps, hp.1]; omega
      unfold RingBuffer.Push
      rw [if_pos hfull, if_neg hpn]
    rw [hstep, hpush]
    exact RingBuffer.push_rep_not_full hU hp (by rw [hps]; omega) v
  · have hlt : b.m_Size < c := by
      have := h.2.2.2.1
      have hcap : b.m_Capacity = c := h.1
      omega
    have hstep : fifoStep c q (RingOp.push v) = q ++ [v] := by
      show (if q.length = c then q.tail else q) ++ [v] = _
      rw [if_neg (by omega)]
    rw [hstep]
    exact RingBuffer.push_rep_not_full hU h hlt v

theorem RingBuffer.clear_loop_rep {α : Type} {c : Nat} (hU : c < U32) :
    ∀ (fuel : Nat) (b : RingBuffer α) (q : List α), RingBuffer.Rep c b q → b.m_Size ≤ fuel →
      ∃ r, RingBuffer.Clear.loop fuel b = some r ∧ RingBuffer.Rep c r [] ∧ r.m_Size = 0 := by
  intro fuel
  induction fuel with
  | zero =>
    intro b q h hle
    have h0 : b.m_Size = 0 := by omega
    have hq : q = [] := by
      have := h.size_eq
      rw [h0] at this
      exact List.length_eq_zero.1 this.symm
    refine ⟨b, ?_, by rw [← hq]; exact h, h0⟩
    show (if b.m_Size ≠ 0 then none else some b) = some b
    rw [if_neg (not_not.mpr h0)]
  | succ fuel ih =>
    intro b q h hle
    by_cases h0 : b.m_Size = 0
    · have hq : q = [] := by
        have := h.size_eq
        rw [h0] at this
        exact List.length_eq_zero.1 this.symm
      refine ⟨b, ?_, by rw [← hq]; exact h, h0⟩
      show (if b.m_Size ≠ 0 then RingBuffer.Clear.loop fuel b.Pop else some b) = some b
      rw [if_neg (not_not.mpr h0)]
    · obtain ⟨hp, hps⟩ := RingBuffer.pop_rep hU h h0
      obtain ⟨r, hr, hrep, hr0⟩ := ih b.Pop q.tail hp (by rw [hps]; omega)
      refine ⟨r, ?_, hrep, hr0⟩
      show (if b.m_Size ≠ 0 then RingBuffer.Clear.loop fuel b.Pop else some b) = some r
      rw [if_pos h0, hr]

theorem RingBuffer.apply_rep {α : Type} {c : Nat} (hc : 0 < c) (hU : c < U32)
    (b : RingBuffer α) (q : List α) (op : RingOp α) (h : RingBuffer.Rep c b q)
    (hpop : op = RingOp.pop → b.m_Size ≠ 0) :
    ∃ r, b.apply op = some r ∧ RingBuffer.Rep c r (fifoStep c q op) := by
  cases op with
  | push v => exact ⟨b.Push v, rfl, RingBuffer.push_rep hc hU h v⟩
  | pop => exact ⟨b.Pop, rfl, (RingBuffer.pop_rep hU h (hpop rfl)).1⟩
  | clear =>
    obtain ⟨r, hr, hrep, -⟩ := RingBuffer.clear_loop_rep hU b.m_Size b q h (Nat.le_refl _)
    exact ⟨r, hr, hrep⟩

theorem RingBuffer.run_rep {α : Type} {c : Nat} (hc : 0 < c) (hU : c < U32) :
    ∀ (ops : List (RingOp α)) (b : RingBuffer α) (q : List α), RingBuffer.Rep c b q →
      b.popsOnNonEmpty ops = true →
      ∃ r, b.run ops = some r ∧ RingBuffer.Rep c r (ops.foldl (fifoStep c) q) := by
  intro ops
  induction ops with
  | nil => intro b q h _; exact ⟨b, rfl, h⟩
  | cons op rest ih =>
    intro b q h hv
    unfold RingBuffer.popsOnNonEmpty at hv
    rw [Bool.and_eq_true] at hv
    have hpop : op = RingOp.pop → b.m_Size ≠ 0 := by
      intro e
      have h1 := hv.1
      rw [e] at h1
      exact of_decide_eq_true h1
    obtain ⟨r1, hr1, hrep1⟩ := RingBuffer.apply_rep hc hU b q op h hpop
    have h2 := hv.2
    rw [hr1] at h2
    obtain ⟨r, hr, hrep⟩ := ih r1 (fifoStep c q op) hrep1 h2
    refine ⟨r, ?_, hrep⟩
    unfold RingBuffer.run
    rw [hr1]
    exact hr

theorem RingBuffer.popsOnNonEmpty_take {α : Type} :
    ∀ (ops : List (RingOp α)) (b : RingBuffer α) (n : Nat), b.popsOnNonEmpty ops = true →
      b.popsOnNonEmpty (ops.take n) = true := by
  intro ops
  induction ops with
  | nil => intro b n h; rw [List.take_nil]; rfl
  | cons op rest ih =>
    intro b n h
    cases n with
    | zero => rfl
    | succ n =>
      rw [List.take_succ_cons]
      unfold RingBuffer.popsOnNonEmpty at h ⊢
      rw [Bool.and_eq_true] at h ⊢
      refine ⟨h.1, ?_⟩
      cases hb : b.apply op with
      | none => rfl
      | some b1 =>
        have h2 := h.2
        rw [hb] at h2
        exact ih b1 n h2

theorem RingBuffer.front_of_rep {α : Type} {c : Nat} {b : RingBuffer α} {q : List α}
    (h : RingBuffer.Rep c b q) (x : α) (hx : q.head? = some x) : b.Front = some x := by
  have hsz := h.size_eq
  obtain ⟨h1, -, h3, -, -, h6⟩ := h
  cases q with
  | nil => cases hx
  | cons y q1 =>
    have hy : y = x := by simpa using hx
    obtain ⟨n, hn⟩ : ∃ n, b.m_Size = n + 1 := ⟨q1.length, by simpa using hsz⟩
    unfold RingBuffer.stored at h6
    rw [hn, range_succ_map_cons, List.map_cons] at h6
    have h0 := (List.cons.inj h6).1
    rw [← hy, ← h0]
    show b.m_Data.getD b.m_ReadPos none =
      b.m_Data.getD ((b.m_ReadPos + 0) % b.m_Capacity) none
    rw [Nat.add_zero, h1, Nat.mod_eq_of_lt h3]

/-! ## The claims -/

set_option maxRecDepth 10000 in
/-- C1 (the code departs from the claim): at total = 1000, PIECE_BYTES = 400, the Piece Data
for chunk 2 (offset 800) with declared length 200 and physical length
`sizeof(ServerUpdatePieceMessage) + 200` meets every condition of the claim, and
`Client::MessageLoop` rejects it: the state is unchanged and the loop returns. -/
theorem C1_full_piece_rejected :
    ((session 1000 [1, 1, 0] 2).m_IsUpdating = true ∧
      (pieceData 7 9 800 200 232).ClientToken = (session 1000 [1, 1, 0] 2).m_ClientToken ∧
      (pieceData 7 9 800 200 232).ServerToken = (session 1000 [1, 1, 0] 2).m_ServerToken ∧
      (pieceData 7 9 800 200 232).PiecePos = 2 * c400.PIECE_BYTES ∧
      2 < (session 1000 [1, 1, 0] 2).m_UpdatePieces.Size ∧
      (session 1000 [1, 1, 0] 2).m_UpdatePieces.get 2 = 0 ∧
      (pieceData 7 9 800 200 232).PieceSize =
        (session 1000 [1, 1, 0] 2).m_UpdateData.Size - 2 * c400.PIECE_BYTES ∧
      (pieceData 7 9 800 200 232).len =
        ((c400.sizeof_ServerUpdatePieceMessage + (pieceData 7 9 800 200 232).PieceSize : Nat) :
          Int)) ∧
    MessageLoop c400 (session 1000 [1, 1, 0] 2) [⟨pieceData 7 9 800 200 232, true, true⟩] =
      (session 1000 [1, 1, 0] 2, []) ∧
    MessageLoop.body c400 (session 1000 [1, 1, 0] 2) ⟨pieceData 7 9 800 200 232, true, true⟩ =
      (session 1000 [1, 1, 0] 2, false) :=
  ⟨⟨rfl, rfl, rfl, rfl, by decide, rfl, rfl, rfl⟩, rfl, rfl⟩

/-- C2: whenever `Client::MessageLoop` copies a Piece Data chunk, the byte range
`[PiecePos, PiecePos + PieceSize)` lies inside the payload buffer, the chunk index lies
inside the bitmap, the chunk's flag was unset before the copy and is set after it, and the
payload buffer keeps its size.  The offset is any 32-bit value, and the range check is the wrapping one. -/
theorem C2_accepted_piece_within_payload (c : Consts) (s : Client) (d : Datagram)
    (hpos : d.PiecePos < U32)
    (hacc : (MessageLoop.SERVER_UPDATE_PIECE c s d).2 = true) :
    d.PiecePos + d.PieceSize ≤ s.m_UpdateData.Size ∧
    d.PiecePos / c.PIECE_BYTES < s.m_UpdatePieces.Size ∧
    s.m_UpdatePieces.get (d.PiecePos / c.PIECE_BYTES) = 0 ∧
    (MessageLoop.SERVER_UPDATE_PIECE c s d).1.m_UpdatePieces.get (d.PiecePos / c.PIECE_BYTES) = 1 ∧
    (MessageLoop.SERVER_UPDATE_PIECE c s d).1.m_UpdateData.Size = s.m_UpdateData.Size := by
  have hc := (piece_flag_iff c s d).1 hacc
  have hz := piece_accepted_size_zero c s d hc
  obtain ⟨-, -, -, -, -, -, -, a8, a9, a10, -⟩ := hc
  rw [hz, Nat.add_zero, Nat.mod_eq_of_lt hpos] at a8
  rw [piece_of_checks c s d ((piece_flag_iff c s d).1 hacc)]
  refine ⟨by omega, a9, a10, Buffer.get_set_self _ _ _ a9, ?_⟩
  simp only [pieceStored, hz, Datagram.chunk_zero, Buffer.write_nil]

set_option maxRecDepth 10000 in
/-- C2 at total = 1000, PIECE_BYTES = 400: the empty final piece at offset 800 is accepted
and its range lies inside the payload. -/
theorem C2_accepted_piece_within_payload_witness :
    (MessageLoop.SERVER_UPDATE_PIECE c400 (session 1000 [1, 1, 0] 2)
        (pieceData 7 9 800 0 32)).2 = true ∧
    (pieceData 7 9 800 0 32).PiecePos + (pieceData 7 9 800 0 32).PieceSize ≤
      (session 1000 [1, 1, 0] 2).m_UpdateData.Size :=
  ⟨rfl, (C2_accepted_piece_within_payload c400 (session 1000 [1, 1, 0] 2)
    (pieceData 7 9 800 0 32) (by decide) rfl).1⟩

/-- C3: a Piece Data datagram whose client token or server token differs from the session's
is rejected by `Client::MessageLoop`, and the whole session state is as before. -/
theorem C3_token_mismatch_rejected (c : Consts) (s : Client) (i : Inbound)
    (ht : i.dgram.Type_ = MessageType.SERVER_UPDATE_PIECE)
    (hm : i.dgram.ClientToken ≠ s.m_ClientToken ∨ i.dgram.ServerToken ≠ s.m_ServerToken) :
    (MessageLoop.SERVER_UPDATE_PIECE c s i.dgram).2 = false ∧
    (MessageLoop.body c s i).1 = s ∧ (MessageLoop c s [i]).1 = s := by
  have hn : ¬ PieceChecks c s i.dgram := by
    rintro ⟨-, -, a3, a4, -⟩
    rcases hm with h | h
    · exact h a3
    · exact h a4
  refine ⟨?_, body_piece_state_of_reject c s i ht hn⟩
  rw [piece_of_not_checks c s i.dgram hn]

/-- C3 on a session with tokens (7, 9) and a piece carrying (7, 8). -/
theorem C3_token_mismatch_rejected_witness :
    (MessageLoop.body c400 (session 1000 [1, 1, 0] 2) ⟨pieceData 7 8 800 0 32, true, true⟩).1 =
      session 1000 [1, 1, 0] 2 :=
  (C3_token_mismatch_rejected c400 (session 1000 [1, 1, 0] 2) ⟨pieceData 7 8 800 0 32, true, true⟩
    rfl (Or.inr (by decide))).2.1

/-- C4: a Piece Data datagram is rejected by `Client::MessageLoop`, with the session state as
before, as soon as its declared length exceeds PIECE_BYTES, or its offset is not a multiple
of PIECE_BYTES, or offset + length exceeds the payload size. -/
theorem C4_malformed_piece_rejected (c : Consts) (s : Client) (i : Inbound)
    (ht : i.dgram.Type_ = MessageType.SERVER_UPDATE_PIECE)
    (hpos : i.dgram.PiecePos < U32)
    (hbad : i.dgram.PieceSize > c.PIECE_BYTES ∨ i.dgram.PiecePos % c.PIECE_BYTES ≠ 0 ∨
      i.dgram.PiecePos + i.dgram.PieceSize > s.m_UpdateData.Size) :
    (MessageLoop.SERVER_UPDATE_PIECE c s i.dgram).2 = false ∧
    (MessageLoop.body c s i).1 = s ∧ (MessageLoop c s [i]).1 = s := by
  have hn : ¬ PieceChecks c s i.dgram := by
    intro hc
    have hz := piece_accepted_size_zero c s i.dgram hc
    obtain ⟨-, -, -, -, a5, -, a7, a8, -⟩ := hc
    rw [hz, Nat.add_zero, Nat.mod_eq_of_lt hpos] at a8
    rcases hbad with h | h | h
    · omega
    · exact h a7
    · omega
  refine ⟨?_, body_piece_state_of_reject c s i ht hn⟩
  rw [piece_of_not_checks c s i.dgram hn]

/-- C4 at total = 1000, PIECE_BYTES = 400: offset 800 with length 400 is rejected. -/
theorem C4_malformed_piece_rejected_witness :
    (MessageLoop.body c400 (session 1000 [1, 1, 0] 2)
        ⟨pieceData 7 9 800 400 (32 + 400), true, true⟩).1 = session 1000 [1, 1, 0] 2 :=
  (C4_malformed_piece_rejected c400 (session 1000 [1, 1, 0] 2)
    ⟨pieceData 7 9 800 400 (32 + 400), true, true⟩ rfl (by decide)
    (Or.inr (Or.inr (by
      show 800 + 400 > (List.replicate 1000 0).length
      rw [List.length_replicate]; decide)))).2.1

/-- C5: handling one Piece Data datagram twice in succession leaves the same session state
(payload buffer, bitmap and bytes-received included) as handling it once, for one iteration
of the receive loop and for `Client::MessageLoop` over the datagram queued twice. -/
theorem C5_piece_idempotent (c : Consts) (s : Client) (i : Inbound)
    (ht : i.dgram.Type_ = MessageType.SERVER_UPDATE_PIECE) :
    (MessageLoop.body c (MessageLoop.body c s i).1 i).1 = (MessageLoop.body c s i).1 ∧
    (MessageLoop c s [i, i]).1 = (MessageLoop c s [i]).1 := by
  refine ⟨body_piece_twice c s i ht, ?_⟩
  rw [loop_two, loop_one c s i]
  by_cases h : i.dgram.len < 0
  · rw [if_pos h, if_pos h]
  · rw [if_neg h, if_neg h]
    cases hb : (MessageLoop.body c s i).2
    · simp only [Bool.false_eq_true, if_false]
    · simp only [if_true]
      rw [loop_one, if_neg h, body_piece_twice c s i ht]

/-- C5 on the empty final piece of a 1000-byte session: the second receipt changes nothing. -/
theorem C5_piece_idempotent_witness :
    (MessageLoop c400 (session 1000 [1, 1, 0] 2)
        [⟨pieceData 7 9 800 0 32, true, true⟩, ⟨pieceData 7 9 800 0 32, true, true⟩]).1 =
      (MessageLoop c400 (session 1000 [1, 1, 0] 2) [⟨pieceData 7 9 800 0 32, true, true⟩]).1 :=
  (C5_piece_idempotent c400 (session 1000 [1, 1, 0] 2) ⟨pieceData 7 9 800 0 32, true, true⟩ rfl).2

/-- C6, as stated, fails: from the constructed client, after an Update Begin Reply for 100
bytes (PIECE_BYTES = 400, one chunk of 100 bytes) the Piece Data for chunk 0 with declared
length 0 is accepted; every chunk flag is then set while bytes-received is 0 and
total-bytes is 100. -/
theorem C6_short_final_piece_accepted :
    (MessageLoop.SERVER_UPDATE_PIECE c400
        (run c400 (Reset client0) [Event.datagram ⟨beginReply 100, true, true⟩])
        (pieceData 0 0 0 0 32)).2 = true ∧
    (pieceData 0 0 0 0 32).PieceSize ≠ lastChunkLen c400 100 ∧
    (run c400 (Reset client0) traceOneChunk).m_UpdatePieces = ⟨some [1]⟩ ∧
    (run c400 (Reset client0) traceOneChunk).m_UpdateData.Size = 100 ∧
    (run c400 (Reset client0) traceOneChunk).m_Status.Bytes = 0 ∧
    (run c400 (Reset client0) traceOneChunk).m_Status.Total = 100 := by
  refine ⟨by decide, by decide, by decide, by decide, by decide, by decide⟩

/-- C6, amended: a Piece Data datagram that `Client::MessageLoop` accepts carries exactly
PIECE_BYTES for every chunk index other than the last, and for the last chunk index at most
that chunk's length, `total mod PIECE_BYTES` (or PIECE_BYTES when that is 0); bytes-received
grows by the declared length. -/
theorem C6_accepted_piece_length_bound (c : Consts) (s : Client) (d : Datagram)
    (hP : 0 < c.PIECE_BYTES) (hpos : d.PiecePos < U32) (hcnt : s.m_UpdatePieces.Size < U32)
    (hcount : s.m_UpdatePieces.Size =
      (s.m_UpdateData.Size + c.PIECE_BYTES - 1) / c.PIECE_BYTES)
    (hacc : (MessageLoop.SERVER_UPDATE_PIECE c s d).2 = true) :
    (d.PiecePos / c.PIECE_BYTES + 1 < s.m_UpdatePieces.Size → d.PieceSize = c.PIECE_BYTES) ∧
    (d.PiecePos / c.PIECE_BYTES + 1 = s.m_UpdatePieces.Size →
      d.PieceSize ≤ lastChunkLen c s.m_UpdateData.Size) ∧
    (MessageLoop.SERVER_UPDATE_PIECE c s d).1.m_Status.Bytes =
      (s.m_Status.Bytes + d.PieceSize) % U32 := by
  have hc := (piece_flag_iff c s d).1 hacc
  have hz := piece_accepted_size_zero c s d hc
  rw [piece_of_checks c s d hc]
  obtain ⟨-, -, -, -, -, -, a7, a8, a9, -, a11⟩ := hc
  refine ⟨?_, ?_, rfl⟩
  · intro hlt
    apply a11
    have hU : U32 = 4294967296 := by decide
    rw [hU] at hcnt ⊢
    omega
  · intro hlast
    rw [hcount] at hlast
    have h := last_chunk_remainder c s.m_UpdateData.Size d.PiecePos hP a7 hlast
    have hsum : d.PiecePos + d.PieceSize < U32 := by rw [hz]; exact hpos
    rw [Nat.mod_eq_of_lt hsum] at a8
    omega

set_option maxRecDepth 10000 in
/-- C6 amended, at total = 1000, PIECE_BYTES = 400: the accepted empty piece for the last
chunk (index 2) is within the chunk's length 200. -/
theorem C6_accepted_piece_length_bound_witness :
    (MessageLoop.SERVER_UPDATE_PIECE c400 (session 1000 [1, 1, 0] 2)
        (pieceData 7 9 800 0 32)).2 = true ∧
    lastChunkLen c400 (session 1000 [1, 1, 0] 2).m_UpdateData.Size = 200 ∧
    ((pieceData 7 9 800 0 32).PiecePos / c400.PIECE_BYTES + 1 =
        (session 1000 [1, 1, 0] 2).m_UpdatePieces.Size →
      (pieceData 7 9 800 0 32).PieceSize ≤
        lastChunkLen c400 (session 1000 [1, 1, 0] 2).m_UpdateData.Size) :=
  ⟨rfl, by decide, (C6_accepted_piece_length_bound c400 (session 1000 [1, 1, 0] 2)
    (pieceData 7 9 800 0 32) (by decide) (by decide) (by decide) (by decide) rfl).2.1⟩

/-- C7 (the code departs from the claim): in a tick of `Client::UpdateProgress` of an active
session in which the piece-request timer fires, the number of Piece Requests sent is the
smaller of MAX_REQUESTS + 1 and the number of chunks missing from the scan index on; with
MAX_REQUESTS + 1 or more chunks missing it is MAX_REQUESTS + 1, one above the cap. -/
theorem C7_requests_per_tick (c : Consts) (s : Client) (now_ms : Int) (token : Nat)
    (writeOk : Bool) (hfin : s.m_IsFinished = false) (hupd : s.m_IsUpdating = true)
    (hk : s.m_UpdateIdx < s.m_UpdatePieces.Size) (ht : now_ms - s.m_LastPieceMS ≥ 100) :
    (UpdateProgress c s now_ms token writeOk).2.pieces.length =
      min (c.MAX_REQUESTS + 1)
        (missingFrom s.m_UpdatePieces s.m_UpdateIdx
          (s.m_UpdatePieces.Size - s.m_UpdateIdx)).length := by
  rw [UpdateProgress_scan c s now_ms token writeOk hfin hupd hk ht]
  simp only [List.length_map, List.length_take]

/-- C7 with MAX_REQUESTS = 2 and four missing chunks: three Piece Requests leave in one tick. -/
theorem C7_requests_per_tick_witness :
    (UpdateProgress c400 (session 1600 [0, 0, 0, 0] 0) 100 0 true).2.pieces.length = 3 ∧
    c400.MAX_REQUESTS = 2 :=
  ⟨(C7_requests_per_tick c400 (session 1600 [0, 0, 0, 0] 0) 100 0 true rfl rfl
      (by decide) (by decide)).trans (by decide), rfl⟩

/-- C8: in a tick of `Client::UpdateProgress` of an active session with scan index
`k < chunk count` in which the piece-request timer fires, the new scan index `j` is the
least index `>= k` whose flag is unset, or the chunk count when there is none; it is never
below `k`; the bitmap is untouched; and the Piece Requests sent carry the session's tokens
and the 32-bit offsets `i * PIECE_BYTES` of strictly increasing indices `i` of missing
chunks, the first of which is `j`.  The 32-bit product is the exact one as soon as the
offset of the last chunk fits in 32 bits. -/
theorem C8_scan_index_advance (c : Consts) (s : Client) (now_ms : Int) (token : Nat)
    (writeOk : Bool) (hfin : s.m_IsFinished = false) (hupd : s.m_IsUpdating = true)
    (hk : s.m_UpdateIdx < s.m_UpdatePieces.Size) (ht : now_ms - s.m_LastPieceMS ≥ 100) :
    s.m_UpdateIdx ≤ (UpdateProgress c s now_ms token writeOk).1.m_UpdateIdx ∧
    (UpdateProgress c s now_ms token writeOk).1.m_UpdateIdx ≤ s.m_UpdatePieces.Size ∧
    (∀ i, s.m_UpdateIdx ≤ i → i < (UpdateProgress c s now_ms token writeOk).1.m_UpdateIdx →
      s.m_UpdatePieces.get i ≠ 0) ∧
    ((UpdateProgress c s now_ms token writeOk).1.m_UpdateIdx < s.m_UpdatePieces.Size →
      s.m_UpdatePieces.get (UpdateProgress c s now_ms token writeOk).1.m_UpdateIdx = 0) ∧
    (UpdateProgress c s now_ms token writeOk).1.m_UpdatePieces = s.m_UpdatePieces ∧
    ∃ idxs : List Nat,
      (UpdateProgress c s now_ms token writeOk).2.pieces =
        idxs.map (fun i => { HeaderVersion := s.m_LocalVersion, ClientToken := s.m_ClientToken,
                             ServerToken := s.m_ServerToken,
                             PiecePos := (i * c.PIECE_BYTES) % U32 }) ∧
      idxs.Pairwise (· < ·) ∧
      (∀ i ∈ idxs, i < s.m_UpdatePieces.Size ∧ s.m_UpdatePieces.get i = 0) ∧
      ((s.m_UpdatePieces.Size - 1) * c.PIECE_BYTES < U32 →
        ∀ i ∈ idxs, (i * c.PIECE_BYTES) % U32 = i * c.PIECE_BYTES) ∧
      idxs.head? =
        if (UpdateProgress c s now_ms token writeOk).1.m_UpdateIdx < s.m_UpdatePieces.Size
        then some (UpdateProgress c s now_ms token writeOk).1.m_UpdateIdx else none := by
  rw [UpdateProgress_scan c s now_ms token writeOk hfin hupd hk ht]
  dsimp only
  have hmem : ∀ i ∈ missingFrom s.m_UpdatePieces s.m_UpdateIdx
      (s.m_UpdatePieces.Size - s.m_UpdateIdx),
      i < s.m_UpdatePieces.Size ∧ s.m_UpdatePieces.get i = 0 := by
    intro i hi
    have := (mem_missingFrom _ _ _ i).1 hi
    exact ⟨by omega, this.2⟩
  have hsorted := missingFrom_pairwise s.m_UpdatePieces s.m_UpdateIdx
    (s.m_UpdatePieces.Size - s.m_UpdateIdx)
  have hexact : ∀ l : List Nat, (∀ i ∈ l, i < s.m_UpdatePieces.Size) →
      (s.m_UpdatePieces.Size - 1) * c.PIECE_BYTES < U32 →
      ∀ i ∈ l, (i * c.PIECE_BYTES) % U32 = i * c.PIECE_BYTES := by
    intro l hl hno i hi
    have h1 : i ≤ s.m_UpdatePieces.Size - 1 := by have := hl i hi; omega
    exact Nat.mod_eq_of_lt (lt_of_le_of_lt (Nat.mul_le_mul_right _ h1) hno)
  cases hL : missingFrom s.m_UpdatePieces s.m_UpdateIdx
      (s.m_UpdatePieces.Size - s.m_UpdateIdx) with
  | nil =>
    have hnil := missingFrom_nil _ _ _ hL
    refine ⟨by simp only [List.headD_nil]; omega, by simp, ?_, by simp, rfl, [], by simp,
      by simp, by simp, by simp, by simp⟩
    intro i hi hij
    simp only [List.headD_nil] at hij
    exact hnil i hi (by omega)
  | cons j rest =>
    obtain ⟨⟨hj1, hj2⟩, hj0, hleast⟩ := missingFrom_head_least _ _ _ _ _ hL
    have hjS : j < s.m_UpdatePieces.Size := by omega
    rw [hL] at hmem hsorted
    simp only [List.headD_cons]
    refine ⟨hj1, by omega, hleast, fun _ => hj0, trivial,
      (j :: rest).take (c.MAX_REQUESTS + 1), rfl, ?_, ?_, ?_, ?_⟩
    · exact hsorted.sublist (List.take_sublist _ _)
    · exact fun i hi => hmem i (List.mem_of_mem_take hi)
    · exact hexact _ (fun i hi => (hmem i (List.mem_of_mem_take hi)).1)
    · simp [hjS]

/-- C8 on a session with flags 1, 0, 1, 0 and scan index 0: the index moves to 1 and the
requests go to offsets 400 and 1200. -/
theorem C8_scan_index_advance_witness :
    (UpdateProgress c400 (session 1600 [1, 0, 1, 0] 0) 100 0 true).1.m_UpdateIdx = 1 ∧
    (UpdateProgress c400 (session 1600 [1, 0, 1, 0] 0) 100 0 true).2.pieces =
      [⟨1, 7, 9, 400⟩, ⟨1, 7, 9, 1200⟩] ∧
    0 ≤ (UpdateProgress c400 (session 1600 [1, 0, 1, 0] 0) 100 0 true).1.m_UpdateIdx :=
  ⟨by decide, by decide,
    (C8_scan_index_advance c400 (session 1600 [1, 0, 1, 0] 0) 100 0 true rfl rfl
      (by decide) (by decide)).1⟩

/-- C9 (the code departs from the claim): from the constructed client, once the single chunk
of a 100-byte update is received and a tick has moved the scan index to the chunk count, a
further Update Begin Reply leaves a fresh bitmap under the old scan index: chunk 0 lies
below next-scan-index 1 and is marked missing. -/
theorem C9_scan_index_past_missing_chunk :
    Reachable c400 (run c400 (Reset client0) traceSecondBegin) ∧
    (run c400 (Reset client0) traceSecondBegin).m_IsUpdating = true ∧
    (run c400 (Reset client0) traceSecondBegin).m_UpdateIdx = 1 ∧
    (run c400 (Reset client0) traceSecondBegin).m_UpdatePieces.Size = 1 ∧
    (run c400 (Reset client0) traceSecondBegin).m_UpdatePieces.get 0 = 0 :=
  ⟨reachable_run c400 client0 traceSecondBegin, by decide, by decide, by decide, by decide⟩

/-- C10 (the code departs from the claim): a tick of `Client::UpdateProgress` of an active
session whose scan index has reached the chunk count, with the storage write succeeding,
sets finished and UP_TO_DATE and returns before `Reset()`: buffers, update-in-progress,
tokens and scan index stay as they were. -/
theorem C10_finalize_success_state (c : Consts) (s : Client) (now_ms : Int) (token : Nat)
    (hfin : s.m_IsFinished = false) (hupd : s.m_IsUpdating = true)
    (hk : s.m_UpdateIdx ≥ s.m_UpdatePieces.Size) :
    UpdateProgress c s now_ms token true =
      ({ s with
         m_IsFinished := true
         m_Status := { s.m_Status with Code := ClientStatusCode.UP_TO_DATE } },
       ⟨[], [], some (s.m_UpdateData.Ptr.getD [])⟩) := by
  unfold UpdateProgress
  rw [if_neg (by rw [hfin]; decide), if_neg (by rw [hupd]; decide), if_pos hk]
  rfl

/-- C10 on a completed 100-byte session with tokens (7, 9): after the successful write the
session is still in progress, the bitmap and the tokens are kept, and the state differs
from what `Reset` leaves. -/
theorem C10_finalize_success_state_witness :
    (UpdateProgress c400 (session 100 [1] 1) 50 0 true).1.m_IsFinished = true ∧
    (UpdateProgress c400 (session 100 [1] 1) 50 0 true).1.m_Status.Code =
      ClientStatusCode.UP_TO_DATE ∧
    (UpdateProgress c400 (session 100 [1] 1) 50 0 true).1.m_IsUpdating = true ∧
    (UpdateProgress c400 (session 100 [1] 1) 50 0 true).1.m_UpdatePieces = ⟨some [1]⟩ ∧
    (UpdateProgress c400 (session 100 [1] 1) 50 0 true).1.m_ClientToken = 7 ∧
    (UpdateProgress c400 (session 100 [1] 1) 50 0 true).1.m_ServerToken = 9 ∧
    (UpdateProgress c400 (session 100 [1] 1) 50 0 true).1.m_UpdateIdx = 1 := by
  rw [C10_finalize_success_state c400 (session 100 [1] 1) 50 0 rfl rfl (by decide)]
  exact ⟨rfl, rfl, rfl, rfl, rfl, rfl, rfl⟩

/-- C11, as stated, fails: from the constructed client, with the single chunk of a 100-byte
update received and the scan index at the chunk count, the tick whose storage write fails
ends with status BAD_WRITE and total-bytes still 100, not 0. -/
theorem C11_total_survives_failed_write :
    (run c400 (Reset client0) traceAllReceived).m_IsFinished = false ∧
    (run c400 (Reset client0) traceAllReceived).m_IsUpdating = true ∧
    (run c400 (Reset client0) traceAllReceived).m_UpdateIdx ≥
      (run c400 (Reset client0) traceAllReceived).m_UpdatePieces.Size ∧
    (UpdateProgress c400 (run c400 (Reset client0) traceAllReceived) 200 0 false).1.m_Status.Code =
      ClientStatusCode.BAD_WRITE ∧
    (UpdateProgress c400 (run c400 (Reset client0) traceAllReceived) 200 0 false).1.m_Status.Total =
      100 := by
  refine ⟨by decide, by decide, by decide, by decide, by decide⟩

/-- C11, amended: a tick of `Client::UpdateProgress` of an active session whose scan index
has reached the chunk count, with the storage write failing, ends with status BAD_WRITE,
the payload buffer and the bitmap released, update-in-progress false (finished true, both
tokens 0, scan index 0); bytes-received and total-bytes are left as they were. -/
theorem C11_failed_write_resets_session (c : Consts) (s : Client) (now_ms : Int) (token : Nat)
    (hfin : s.m_IsFinished = false) (hupd : s.m_IsUpdating = true)
    (hk : s.m_UpdateIdx ≥ s.m_UpdatePieces.Size) :
    (UpdateProgress c s now_ms token false).1.m_Status.Code = ClientStatusCode.BAD_WRITE ∧
    (UpdateProgress c s now_ms token false).1.m_UpdateData = ⟨none⟩ ∧
    (UpdateProgress c s now_ms token false).1.m_UpdatePieces = ⟨none⟩ ∧
    (UpdateProgress c s now_ms token false).1.m_IsUpdating = false ∧
    (UpdateProgress c s now_ms token false).1.m_IsFinished = true ∧
    (UpdateProgress c s now_ms token false).1.m_ClientToken = 0 ∧
    (UpdateProgress c s now_ms token false).1.m_ServerToken = 0 ∧
    (UpdateProgress c s now_ms token false).1.m_UpdateIdx = 0 ∧
    (UpdateProgress c s now_ms token false).1.m_Status.Bytes = s.m_Status.Bytes ∧
    (UpdateProgress c s now_ms token false).1.m_Status.Total = s.m_Status.Total ∧
    (UpdateProgress c s now_ms token false).2.written = some (s.m_UpdateData.Ptr.getD []) := by
  rw [UpdateProgress_write_failed c s now_ms token hfin hupd hk]
  exact ⟨rfl, rfl, rfl, rfl, rfl, rfl, rfl, rfl, rfl, rfl, rfl⟩

/-- C11 amended, on a completed 100-byte session: after the failed write the buffers are
released and the counters are kept. -/
theorem C11_failed_write_resets_session_witness :
    (UpdateProgress c400 (session 100 [1] 1) 50 0 false).1.m_UpdateData = ⟨none⟩ ∧
    (UpdateProgress c400 (session 100 [1] 1) 50 0 false).1.m_Status.Total =
      (session 100 [1] 1).m_Status.Total :=
  ⟨(C11_failed_write_resets_session c400 (session 100 [1] 1) 50 0 rfl rfl (by decide)).2.1,
   (C11_failed_write_resets_session c400 (session 100 [1] 1) 50 0 rfl rfl
     (by decide)).2.2.2.2.2.2.2.2.2.1⟩

/-- C12, as stated, fails: after the finalize that ends in BAD_WRITE, with no datagram in
between, the tick at 5000 ms (last begin request at 0) sends no Update Begin Request. -/
theorem C12_no_retry_after_bad_write :
    (UpdateProgress c400 (run c400 (Reset client0) traceAllReceived) 200 0 false).1.m_Status.Code =
      ClientStatusCode.BAD_WRITE ∧
    (UpdateProgress c400 (run c400 (Reset client0) traceAllReceived) 200 0 false).1.m_LastUpdateMS =
      0 ∧
    (UpdateProgress c400
      (UpdateProgress c400 (run c400 (Reset client0) traceAllReceived) 200 0 false).1
      5000 5 true).2.begins = [] := by
  refine ⟨by decide, by decide, by decide⟩

/-- C12, amended: after a finalize that ends in BAD_WRITE the session is reset with finished
true, so with no inbound datagram in between no tick of `Client::UpdateProgress` starts a
new attempt, whatever the clock shows: every such tick sends nothing and leaves the state
as it is.  When a Version Info from the server with a version other than the local one is
handled after the reset, the first later tick at which at least 1000 ms have elapsed since
the last begin request (the earlier ticks change nothing) sends one Update Begin
Request. -/
theorem C12_retry_after_bad_write (c : Consts) (s : Client) (now_ms : Int) (token : Nat)
    (hfin : s.m_IsFinished = false) (hupd : s.m_IsUpdating = true)
    (hk : s.m_UpdateIdx ≥ s.m_UpdatePieces.Size) :
    (∀ ts, run c (UpdateProgress c s now_ms token false).1 (ticks ts) =
      (UpdateProgress c s now_ms token false).1) ∧
    (∀ now1 token1 writeOk1,
      UpdateProgress c (UpdateProgress c s now_ms token false).1 now1 token1 writeOk1 =
        ((UpdateProgress c s now_ms token false).1, ⟨[], [], none⟩)) ∧
    (∀ (i : Inbound) (early : List (Int × Nat × Bool)) now1 token1 writeOk1,
      i.dgram.addr = s.m_Host →
      ¬ i.dgram.len < (c.sizeof_header_t : Int) →
      i.dgram.Type_ = MessageType.SERVER_RECEIVE_VERSION →
      i.dgram.len = (c.sizeof_ServerVersionInfoMessage : Int) →
      i.dgram.Version ≠ s.m_LocalVersion →
      (∀ t ∈ early, t.1 - s.m_LastUpdateMS < 1000) →
      now1 - s.m_LastUpdateMS ≥ 1000 →
      run c (UpdateProgress c s now_ms token false).1 (Event.datagram i :: ticks early) =
        (MessageLoop.body c (UpdateProgress c s now_ms token false).1 i).1 ∧
      (UpdateProgress c
        (run c (UpdateProgress c s now_ms token false).1 (Event.datagram i :: ticks early))
        now1 token1 writeOk1).2.begins =
        [{ HeaderVersion := i.dgram.Version, ClientVersion := i.dgram.Version,
           ClientToken := token1, ServerToken := 0 }]) := by
  have key : ∀ s1 : Client, s1.m_IsFinished = true → s1.m_IsUpdating = false →
      s1.m_Host = s.m_Host → s1.m_LocalVersion = s.m_LocalVersion →
      s1.m_LastUpdateMS = s.m_LastUpdateMS → s1.m_ServerToken = 0 →
      (∀ ts, run c s1 (ticks ts) = s1) ∧
      (∀ now1 token1 writeOk1, UpdateProgress c s1 now1 token1 writeOk1 = (s1, ⟨[], [], none⟩)) ∧
      (∀ (i : Inbound) (early : List (Int × Nat × Bool)) now1 token1 writeOk1,
        i.dgram.addr = s.m_Host →
        ¬ i.dgram.len < (c.sizeof_header_t : Int) →
        i.dgram.Type_ = MessageType.SERVER_RECEIVE_VERSION →
        i.dgram.len = (c.sizeof_ServerVersionInfoMessage : Int) →
        i.dgram.Version ≠ s.m_LocalVersion →
        (∀ t ∈ early, t.1 - s.m_LastUpdateMS < 1000) →
        now1 - s.m_LastUpdateMS ≥ 1000 →
        run c s1 (Event.datagram i :: ticks early) = (MessageLoop.body c s1 i).1 ∧
        (UpdateProgress c (run c s1 (Event.datagram i :: ticks early))
          now1 token1 writeOk1).2.begins =
          [{ HeaderVersion := i.dgram.Version, ClientVersion := i.dgram.Version,
             ClientToken := token1, ServerToken := 0 }]) := by
    intro s1 h1 h2 h3 h4 h5 h6
    refine ⟨fun ts => run_ticks_finished c s1 h1 ts,
      fun now1 token1 writeOk1 => UpdateProgress_finished c s1 _ _ _ h1, ?_⟩
    intro i early now1 token1 writeOk1 ha hh ht hl hv hearly htime
    have e : MessageLoop.body c s1 i =
        ({ s1 with
           m_Status := { s1.m_Status with Code := ClientStatusCode.NEEDS_UPDATE }
           m_ClientVersion := i.dgram.Version
           m_PublicKey := i.dgram.PublicKey
           m_IsFinished := false }, true) := by
      rw [body_version_eq c s1 i (ha.trans h3.symm) hh ht,
        version_differs c s1 i.dgram hl (by rw [h4]; exact hv)]
    have f1 : (MessageLoop.body c s1 i).1.m_IsFinished = false := by rw [e]
    have f2 : (MessageLoop.body c s1 i).1.m_IsUpdating = false := by rw [e]; exact h2
    have f3 : (MessageLoop.body c s1 i).1.m_LastUpdateMS = s.m_LastUpdateMS := by
      rw [e]; exact h5
    have f4 : (MessageLoop.body c s1 i).1.m_ClientVersion = i.dgram.Version := by rw [e]
    have f5 : (MessageLoop.body c s1 i).1.m_ServerToken = 0 := by rw [e]; exact h6
    have hlen : ¬ i.dgram.len < 0 := by rw [hl]; omega
    have hstep : step c s1 (Event.datagram i) = (MessageLoop.body c s1 i).1 := by
      show (MessageLoop c s1 [i]).1 = _
      rw [loop_one, if_neg hlen]
    have hrun : run c s1 (Event.datagram i :: ticks early) = (MessageLoop.body c s1 i).1 := by
      show run c (step c s1 (Event.datagram i)) (ticks early) = _
      rw [hstep]
      exact run_ticks_not_due c _ f1 f2 early (fun t ht1 => by rw [f3]; exact hearly t ht1)
    refine ⟨hrun, ?_⟩
    rw [hrun, UpdateProgress_begin c (MessageLoop.body c s1 i).1 now1 token1 writeOk1 f1 f2,
      if_pos (by rw [f3]; exact htime)]
    show [({ HeaderVersion := (MessageLoop.body c s1 i).1.m_ClientVersion,
             ClientVersion := (MessageLoop.body c s1 i).1.m_ClientVersion,
             ClientToken := token1,
             ServerToken := (MessageLoop.body c s1 i).1.m_ServerToken } :
            ClientUpdateBeginMessage)] = _
    rw [f4, f5]
  rw [UpdateProgress_write_failed c s now_ms token hfin hupd hk]
  exact key _ rfl rfl rfl rfl rfl rfl

/-- C12 amended, on a completed 100-byte session (local version 1, last begin request at
0): after the failed write a tick at 5000 ms sends nothing; after a Version Info
advertising version 2 and a tick at 500 ms, the tick at 1000 ms sends one Update Begin
Request for version 2. -/
theorem C12_retry_after_bad_write_witness :
    UpdateProgress c400 (UpdateProgress c400 (session 100 [1] 1) 50 0 false).1 5000 5 true =
      ((UpdateProgress c400 (session 100 [1] 1) 50 0 false).1, ⟨[], [], none⟩) ∧
    (UpdateProgress c400
      (run c400 (UpdateProgress c400 (session 100 [1] 1) 50 0 false).1
        (Event.datagram ⟨versionInfo 2, true, true⟩ :: ticks [(500, 3, true)]))
      1000 5 true).2.begins = [⟨2, 2, 5, 0⟩] :=
  ⟨(C12_retry_after_bad_write c400 (session 100 [1] 1) 50 0 rfl rfl (by decide)).2.1 5000 5 true,
   ((C12_retry_after_bad_write c400 (session 100 [1] 1) 50 0 rfl rfl (by decide)).2.2
      ⟨versionInfo 2, true, true⟩ [(500, 3, true)] 1000 5 true rfl (by decide) rfl rfl
      (by decide) (by decide) (by decide)).2⟩

/-- C13: an Update Begin Reply whose declared total size is 0 or at least 200 MiB is rejected
by `Client::MessageLoop` with the whole session state as before (whatever its length and
whatever the allocations would do); and the begin branch runs to its end only for
`0 < size < 200 MiB`. -/
theorem C13_unreasonable_size_rejected (c : Consts) (s : Client) (i : Inbound)
    (ht : i.dgram.Type_ = MessageType.SERVER_UPDATE_BEGIN)
    (hsize : i.dgram.UpdateSize = 0 ∨ i.dgram.UpdateSize ≥ 200 * 1024 * 1024) :
    MessageLoop.SERVER_UPDATE_BEGIN c s i.dgram i.allocData i.allocPieces = (s, false) ∧
    (MessageLoop.body c s i).1 = s ∧ (MessageLoop c s [i]).1 = s ∧
    ∀ (d : Datagram) (a1 a2 : Bool), (MessageLoop.SERVER_UPDATE_BEGIN c s d a1 a2).2 = true →
      0 < d.UpdateSize ∧ d.UpdateSize < 200 * 1024 * 1024 := by
  have hb : (MessageLoop.body c s i).1 = s := by
    rcases body_cases c s i with h | ⟨-, -, h | h | h | h⟩
    · rw [h]
    · rw [ht] at h; exact absurd h.1 (by decide)
    · rw [h.2, begin_size_rejected c s i.dgram _ _ hsize]
    · rw [ht] at h; exact absurd h.1 (by decide)
    · rw [ht] at h; exact absurd h.1 (by decide)
  exact ⟨begin_size_rejected c s i.dgram _ _ hsize, hb, loop_one_of_body c s i hb,
    fun d a1 a2 h => begin_flag_size c s d a1 a2 h⟩

/-- C13 on an active 1000-byte session: replies declaring 0 bytes and 200 MiB leave it as it
is. -/
theorem C13_unreasonable_size_rejected_witness :
    (MessageLoop c400 (session 1000 [1, 1, 0] 2) [⟨beginReply 0, true, true⟩]).1 =
      session 1000 [1, 1, 0] 2 ∧
    (MessageLoop c400 (session 1000 [1, 1, 0] 2) [⟨beginReply (200 * 1024 * 1024), true, true⟩]).1 =
      session 1000 [1, 1, 0] 2 :=
  ⟨(C13_unreasonable_size_rejected c400 (session 1000 [1, 1, 0] 2) ⟨beginReply 0, true, true⟩
      rfl (Or.inl rfl)).2.2.1,
   (C13_unreasonable_size_rejected c400 (session 1000 [1, 1, 0] 2)
      ⟨beginReply (200 * 1024 * 1024), true, true⟩ rfl (Or.inr (Nat.le_refl _))).2.2.1⟩

/-- C14: an Update Begin Reply from the server, of the correct length, with
`0 < size < 200 MiB` and both allocations succeeding, leaves a payload buffer of `size`
zero bytes, a bitmap of `(size + PIECE_BYTES - 1) / PIECE_BYTES` unset flags (the 32-bit sum
does not wrap, and the count `n` is the ceiling: `size <= n * PIECE_BYTES < size +
PIECE_BYTES`), the reply's signature, bytes-received 0, total `size`, update-in-progress
true and finished false; the other fields are as before.  PIECE_BYTES is positive and
small enough for `200 MiB + PIECE_BYTES` to fit in 32 bits. -/
theorem C14_begin_reply_accepted (c : Consts) (s : Client) (i : Inbound)
    (hP : 0 < c.PIECE_BYTES) (hfit : c.PIECE_BYTES + 200 * 1024 * 1024 ≤ U32 + 1)
    (ha : i.dgram.addr = s.m_Host) (hh : ¬ i.dgram.len < (c.sizeof_header_t : Int))
    (ht : i.dgram.Type_ = MessageType.SERVER_UPDATE_BEGIN)
    (hl : i.dgram.len = (c.sizeof_ServerUpdateBeginMessage : Int))
    (hpos : 0 < i.dgram.UpdateSize) (hlt : i.dgram.UpdateSize < 200 * 1024 * 1024)
    (h1 : i.allocData = true) (h2 : i.allocPieces = true) :
    MessageLoop.body c s i =
      ({ s with
         m_UpdateData := ⟨some (List.replicate i.dgram.UpdateSize 0)⟩
         m_UpdatePieces := ⟨some (List.replicate
           ((i.dgram.UpdateSize + c.PIECE_BYTES - 1) / c.PIECE_BYTES) 0)⟩
         m_UpdateSignature := i.dgram.UpdateSignature
         m_Status := { s.m_Status with Bytes := 0, Total := i.dgram.UpdateSize }
         m_IsUpdating := true
         m_IsFinished := false }, true) ∧
    (MessageLoop c s [i]).1 = (MessageLoop.body c s i).1 ∧
    (MessageLoop.body c s i).1.m_UpdateData.Size = i.dgram.UpdateSize ∧
    (MessageLoop.body c s i).1.m_UpdatePieces.Size =
      (i.dgram.UpdateSize + c.PIECE_BYTES - 1) / c.PIECE_BYTES ∧
    i.dgram.UpdateSize ≤ (MessageLoop.body c s i).1.m_UpdatePieces.Size * c.PIECE_BYTES ∧
    (MessageLoop.body c s i).1.m_UpdatePieces.Size * c.PIECE_BYTES <
      i.dgram.UpdateSize + c.PIECE_BYTES := by
  have hsum : i.dgram.UpdateSize + c.PIECE_BYTES - 1 < U32 := by
    have hU : U32 = 4294967296 := by decide
    rw [hU] at hfit ⊢
    omega
  have hb : MessageLoop.body c s i =
      ({ s with
         m_UpdateData := ⟨some (List.replicate i.dgram.UpdateSize 0)⟩
         m_UpdatePieces := ⟨some (List.replicate
           ((i.dgram.UpdateSize + c.PIECE_BYTES - 1) / c.PIECE_BYTES) 0)⟩
         m_UpdateSignature := i.dgram.UpdateSignature
         m_Status := { s.m_Status with Bytes := 0, Total := i.dgram.UpdateSize }
         m_IsUpdating := true
         m_IsFinished := false }, true) := by
    rw [body_begin_eq c s i ha hh ht, h1, h2, begin_accepted c s i.dgram hl hpos hlt,
      Nat.mod_eq_of_lt hsum]
  have hlen : ¬ i.dgram.len < 0 := by rw [hl]; omega
  have hcnt : (MessageLoop.body c s i).1.m_UpdatePieces.Size =
      (i.dgram.UpdateSize + c.PIECE_BYTES - 1) / c.PIECE_BYTES := by
    rw [hb]; simp [Buffer.Size]
  have hce := ceil_div_bounds i.dgram.UpdateSize c.PIECE_BYTES hP
  refine ⟨hb, ?_, ?_, hcnt, ?_, ?_⟩
  · rw [loop_one, if_neg hlen]
  · rw [hb]; simp [Buffer.Size]
  · rw [hcnt]; exact hce.1
  · rw [hcnt]; exact hce.2

set_option maxRecDepth 10000 in
/-- C14 at size 1000, PIECE_BYTES 400, on the constructed client: the bitmap has 3 entries. -/
theorem C14_begin_reply_accepted_witness :
    (MessageLoop.body c400 (Reset client0) ⟨beginReply 1000, true, true⟩).1.m_UpdatePieces =
      ⟨some [0, 0, 0]⟩ ∧
    (MessageLoop.body c400 (Reset client0) ⟨beginReply 1000, true, true⟩).1.m_UpdatePieces.Size =
      (1000 + 400 - 1) / 400 :=
  ⟨by decide,
   (C14_begin_reply_accepted c400 (Reset client0) ⟨beginReply 1000, true, true⟩ (by decide)
     (by decide) rfl (by decide) rfl rfl (by decide) (by decide) rfl rfl).2.2.2.1⟩

/-- C15: a Version Info from the server of the correct length sets status UP_TO_DATE and
changes nothing else when the advertised version equals the local one; when it differs it
sets status NEEDS_UPDATE, stores the advertised version as target client version, copies
the public key and clears the finished flag, and changes nothing else. -/
theorem C15_version_info_handled (c : Consts) (s : Client) (i : Inbound)
    (ha : i.dgram.addr = s.m_Host) (hh : ¬ i.dgram.len < (c.sizeof_header_t : Int))
    (ht : i.dgram.Type_ = MessageType.SERVER_RECEIVE_VERSION)
    (hl : i.dgram.len = (c.sizeof_ServerVersionInfoMessage : Int)) :
    (i.dgram.Version = s.m_LocalVersion →
      MessageLoop.body c s i =
        ({ s with m_Status := { s.m_Status with Code := ClientStatusCode.UP_TO_DATE } }, true)) ∧
    (i.dgram.Version ≠ s.m_LocalVersion →
      MessageLoop.body c s i =
        ({ s with
           m_Status := { s.m_Status with Code := ClientStatusCode.NEEDS_UPDATE }
           m_ClientVersion := i.dgram.Version
           m_PublicKey := i.dgram.PublicKey
           m_IsFinished := false }, true)) ∧
    (MessageLoop c s [i]).1 = (MessageLoop.body c s i).1 := by
  have hlen : ¬ i.dgram.len < 0 := by rw [hl]; omega
  refine ⟨fun hv => ?_, fun hv => ?_, ?_⟩
  · rw [body_version_eq c s i ha hh ht, version_equal c s i.dgram hl hv]
  · rw [body_version_eq c s i ha hh ht, version_differs c s i.dgram hl hv]
  · rw [loop_one, if_neg hlen]

/-- C15 on the constructed client (local version 1): version 1 gives UP_TO_DATE with the
finished flag still set and no buffer; version 2 gives NEEDS_UPDATE, target version 2, the
message's key and finished cleared. -/
theorem C15_version_info_handled_witness :
    MessageLoop.body c400 (Reset client0) ⟨versionInfo 1, true, true⟩ =
      ({ Reset client0 with m_Status := ⟨0, 0, ClientStatusCode.UP_TO_DATE⟩ }, true) ∧
    MessageLoop.body c400 (Reset client0) ⟨versionInfo 2, true, true⟩ =
      ({ Reset client0 with
         m_Status := ⟨0, 0, ClientStatusCode.NEEDS_UPDATE⟩
         m_ClientVersion := 2
         m_PublicKey := ⟨3, [4, 5, 6]⟩
         m_IsFinished := false }, true) :=
  ⟨(C15_version_info_handled c400 (Reset client0) ⟨versionInfo 1, true, true⟩ rfl (by decide)
      rfl rfl).1 rfl,
   (C15_version_info_handled c400 (Reset client0) ⟨versionInfo 2, true, true⟩ rfl (by decide)
      rfl rfl).2.1 (by decide)⟩

/-- C16: in a state with finished false and update-in-progress false, a tick of
`Client::UpdateProgress` with `now - last-begin-request >= 1000` sends exactly one Update
Begin Request carrying the target client version, the token the generator returned (hence
non-zero when the generator's value is) and the current server token, stores that token as
client token, sets last-begin-request to `now` and status to NONE, and changes nothing
else; with `now - last-begin-request < 1000` it sends nothing and changes no state. -/
theorem C16_begin_request_tick (c : Consts) (s : Client) (now_ms : Int) (token : Nat)
    (writeOk : Bool) (hfin : s.m_IsFinished = false) (hupd : s.m_IsUpdating = false) :
    (now_ms - s.m_LastUpdateMS ≥ 1000 →
      UpdateProgress c s now_ms token writeOk =
        ({ s with
           m_LastUpdateMS := now_ms
           m_ClientToken := token
           m_Status := { s.m_Status with Code := ClientStatusCode.NONE } },
         ⟨[{ HeaderVersion := s.m_ClientVersion, ClientVersion := s.m_ClientVersion,
             ClientToken := token, ServerToken := s.m_ServerToken }], [], none⟩) ∧
      (token ≠ 0 → ∀ m ∈ (UpdateProgress c s now_ms token writeOk).2.begins,
        m.ClientToken ≠ 0)) ∧
    (now_ms - s.m_LastUpdateMS < 1000 →
      UpdateProgress c s now_ms token writeOk = (s, ⟨[], [], none⟩)) := by
  rw [UpdateProgress_begin c s now_ms token writeOk hfin hupd]
  refine ⟨fun h => ?_, fun h => ?_⟩
  · rw [if_pos h]
    refine ⟨rfl, fun htok m hm => ?_⟩
    rw [List.mem_singleton.1 hm]
    exact htok
  · rw [if_neg (by omega)]

/-- C16 after a Version Info advertising version 2: the tick at 1000 ms sends one request
with target version 2, token 5 and server token 0; the tick at 999 ms sends nothing. -/
theorem C16_begin_request_tick_witness :
    (UpdateProgress c400 needsUpdate 1000 5 true).2 = ⟨[⟨2, 2, 5, 0⟩], [], none⟩ ∧
    UpdateProgress c400 needsUpdate 999 5 true = (needsUpdate, ⟨[], [], none⟩) :=
  ⟨congrArg Prod.snd
      ((C16_begin_request_tick c400 needsUpdate 1000 5 true rfl rfl).1 (by decide)).1,
   (C16_begin_request_tick c400 needsUpdate 999 5 true rfl rfl).2 (by decide)⟩

/-- C17 (the code departs from the claim): from the constructed client, an Update Begin
Reply whose payload allocation succeeds and whose bitmap allocation fails leaves the
payload buffer allocated (100 bytes), the bitmap absent and update-in-progress false. -/
theorem C17_buffer_without_bitmap :
    Reachable c400 (run c400 (Reset client0) traceBitmapAllocFails) ∧
    (run c400 (Reset client0) traceBitmapAllocFails).m_UpdateData =
      ⟨some (List.replicate 100 0)⟩ ∧
    (run c400 (Reset client0) traceBitmapAllocFails).m_UpdatePieces = ⟨none⟩ ∧
    (run c400 (Reset client0) traceBitmapAllocFails).m_IsUpdating = false :=
  ⟨reachable_run c400 client0 traceBitmapAllocFails, by decide, by decide, by decide⟩

/-- C18: a Token Assignment from the server of the correct length whose echoed client token
equals the session's sets the session's server token to the message's and changes nothing
else; one whose echoed client token differs leaves the whole state as it was. -/
theorem C18_token_assignment (c : Consts) (s : Client) (i : Inbound)
    (ha : i.dgram.addr = s.m_Host) (hh : ¬ i.dgram.len < (c.sizeof_header_t : Int))
    (ht : i.dgram.Type_ = MessageType.SERVER_UPDATE_TOKEN)
    (hl : i.dgram.len = (c.sizeof_ServerUpdateTokenMessage : Int)) :
    (i.dgram.ClientToken = s.m_ClientToken →
      (MessageLoop.body c s i).1 = { s with m_ServerToken := i.dgram.ServerToken } ∧
      (MessageLoop c s [i]).1 = { s with m_ServerToken := i.dgram.ServerToken }) ∧
    (i.dgram.ClientToken ≠ s.m_ClientToken →
      (MessageLoop.body c s i).1 = s ∧ (MessageLoop c s [i]).1 = s) := by
  have hlen : ¬ i.dgram.len < 0 := by rw [hl]; omega
  have hb := body_token_eq c s i ha hh ht
  unfold MessageLoop.SERVER_UPDATE_TOKEN at hb
  rw [if_neg (not_not.mpr hl)] at hb
  refine ⟨fun hv => ?_, fun hv => ?_⟩
  · rw [if_neg (not_not.mpr hv)] at hb
    rw [loop_one, if_neg hlen, hb]
    exact ⟨rfl, rfl⟩
  · rw [if_pos hv] at hb
    rw [loop_one, if_neg hlen, hb]
    exact ⟨rfl, rfl⟩

/-- C18 on a session with tokens (7, 9): the assignment echoing 7 sets the server token to
11, the one echoing 6 changes nothing. -/
theorem C18_token_assignment_witness :
    (MessageLoop.body c400 (session 100 [0] 0) ⟨tokenAssign 7 11, true, true⟩).1 =
      { session 100 [0] 0 with m_ServerToken := 11 } ∧
    (MessageLoop.body c400 (session 100 [0] 0) ⟨tokenAssign 6 11, true, true⟩).1 =
      session 100 [0] 0 :=
  ⟨((C18_token_assignment c400 (session 100 [0] 0) ⟨tokenAssign 7 11, true, true⟩ rfl
      (by decide) rfl rfl).1 rfl).1,
   ((C18_token_assignment c400 (session 100 [0] 0) ⟨tokenAssign 6 11, true, true⟩ rfl
      (by decide) rfl rfl).2 (by decide)).1⟩

/-- C19: a datagram whose sender is not the configured server, or which is shorter than the
message header, or whose length differs from the one required for its tag, leaves the
session state as it was, whatever else it contains. -/
theorem C19_malformed_datagram_ignored (c : Consts) (s : Client) (i : Inbound)
    (hbad : i.dgram.addr ≠ s.m_Host ∨ i.dgram.len < (c.sizeof_header_t : Int) ∨
      LengthMismatch c i.dgram) :
    (MessageLoop.body c s i).1 = s ∧ (MessageLoop c s [i]).1 = s := by
  have hb : (MessageLoop.body c s i).1 = s := by
    rcases body_cases c s i with h | ⟨ha, hh, h⟩
    · rw [h]
    · rcases hbad with h1 | h1 | h1
      · exact absurd ha h1
      · exact absurd h1 hh
      · unfold LengthMismatch at h1
        rcases h with ⟨ht, he⟩ | ⟨ht, he⟩ | ⟨ht, he⟩ | ⟨ht, he⟩
        · rw [ht] at h1
          rw [he, version_len_rejected c s i.dgram h1]
        · rw [ht] at h1
          rw [he, begin_len_rejected c s i.dgram _ _ h1]
        · rw [ht] at h1
          rw [he]
          apply piece_rejected_state
          rw [piece_of_not_checks]
          rintro ⟨a1, -, -, -, -, a6, -⟩
          rcases h1 with h1 | h1
          · exact h1 a1
          · exact h1 a6
        · rw [ht] at h1
          rw [he, token_len_rejected c s i.dgram h1]
  exact ⟨hb, loop_one_of_body c s i hb⟩

/-- C19 on a session with tokens (7, 9): a Token Assignment echoing 7 from address 2, and
one from the server with one byte too many, both leave the state as it was. -/
theorem C19_malformed_datagram_ignored_witness :
    (MessageLoop c400 (session 100 [0] 0)
        [⟨{ tokenAssign 7 11 with addr := 2 }, true, true⟩]).1 = session 100 [0] 0 ∧
    (MessageLoop c400 (session 100 [0] 0)
        [⟨{ tokenAssign 7 11 with len := 25 }, true, true⟩]).1 = session 100 [0] 0 :=
  ⟨(C19_malformed_datagram_ignored c400 (session 100 [0] 0)
      ⟨{ tokenAssign 7 11 with addr := 2 }, true, true⟩ (Or.inl (by decide))).2,
   (C19_malformed_datagram_ignored c400 (session 100 [0] 0)
      ⟨{ tokenAssign 7 11 with len := 25 }, true, true⟩
      (Or.inr (Or.inr (by show (25 : Int) ≠ ((24 : Nat) : Int); decide)))).2⟩

set_option maxRecDepth 10000 in
/-- C20 (the code departs from the claim): with a Piece Data carrying a wrong server token
queued in front of a well-formed Token Assignment, one call of `Client::MessageLoop`
returns on the rejected piece: the state is unchanged (server token 9) and the Token
Assignment is left unreceived, while handling every queued datagram in turn would set the
server token to 11. -/
theorem C20_return_leaves_queue :
    MessageLoop c400 (session 1000 [1, 1, 0] 2) queueRejectedThenToken =
      (session 1000 [1, 1, 0] 2, [⟨tokenAssign 7 11, true, true⟩]) ∧
    (session 1000 [1, 1, 0] 2).m_ServerToken = 9 ∧
    (queueRejectedThenToken.foldl (fun st i => (MessageLoop.body c400 st i).1)
      (session 1000 [1, 1, 0] 2)).m_ServerToken = 11 :=
  ⟨rfl, rfl, rfl⟩

/-- C21 (the code departs from the claim): from the constructed client, after the single
chunk was received, the scan index reached the chunk count and the Update Begin Reply
arrived once more, the next tick of `Client::UpdateProgress` writes the 100-byte payload
buffer to storage while chunk 0 of the current bitmap is not flagged. -/
theorem C21_finalize_with_missing_chunk :
    Reachable c400 (run c400 (Reset client0) traceSecondBegin) ∧
    (UpdateProgress c400 (run c400 (Reset client0) traceSecondBegin) 200 0 true).2.written =
      some (List.replicate 100 0) ∧
    (run c400 (Reset client0) traceSecondBegin).m_UpdatePieces.Size = 1 ∧
    (run c400 (Reset client0) traceSecondBegin).m_UpdatePieces.get 0 = 0 :=
  ⟨reachable_run c400 client0 traceSecondBegin, by decide, by decide, by decide⟩

/-- C22 (the code departs from the claim): from the constructed client, whose client token
is 0, an Update Begin Reply starts a session; update-in-progress is true with client token
0, and the Piece Data carrying client token 0 is accepted. -/
theorem C22_session_with_zero_client_token :
    Reachable c400 (run c400 (Reset client0) traceBeginOnly) ∧
    (run c400 (Reset client0) traceBeginOnly).m_IsUpdating = true ∧
    (run c400 (Reset client0) traceBeginOnly).m_ClientToken = 0 ∧
    (pieceData 0 0 0 0 32).ClientToken = 0 ∧
    (MessageLoop.SERVER_UPDATE_PIECE c400 (run c400 (Reset client0) traceBeginOnly)
      (pieceData 0 0 0 0 32)).2 = true :=
  ⟨reachable_run c400 client0 traceBeginOnly, by decide, by decide, rfl, by decide⟩

/-- C23: for a capacity `0 < c` (a `uint32`), after every sequence of `Push`, `Pop` and
`Clear` calls from construction in which `Pop` is only called on a non-empty buffer, the
calls all return, the stored elements from the read position onward are the queue of the
capacity-bounded FIFO, `Size` is its length (at most `c`), and `Front` is its oldest
element. -/
theorem C23_ring_buffer_is_bounded_fifo {α : Type} (c : Nat) (hc : 0 < c) (hU : c < U32)
    (ops : List (RingOp α))
    (hpop : (RingBuffer.construct c : RingBuffer α).popsOnNonEmpty ops = true) :
    ∃ b, (RingBuffer.construct c : RingBuffer α).run ops = some b ∧
      b.stored = (fifoRun c ops).map some ∧ b.Size = (fifoRun c ops).length ∧
      (fifoRun c ops).length ≤ c ∧
      ∀ x, (fifoRun c ops).head? = some x → b.Front = some x := by
  obtain ⟨b, hb, hrep⟩ := RingBuffer.run_rep hc hU ops (RingBuffer.construct c) []
    (RingBuffer.construct_rep c hc) hpop
  refine ⟨b, hb, hrep.2.2.2.2.2, hrep.size_eq, ?_, fun x hx => RingBuffer.front_of_rep hrep x hx⟩
  have h1 := hrep.size_eq
  have h2 := hrep.2.2.2.1
  unfold fifoRun
  omega

/-- C23 on capacity 2: after pushing 1, 2, 3 and popping once the buffer stores 3 alone. -/
theorem C23_ring_buffer_is_bounded_fifo_witness :
    fifoRun 2 ringOps = [3] ∧
    ∃ b, (RingBuffer.construct 2 : RingBuffer Nat).run ringOps = some b ∧
      b.stored = (fifoRun 2 ringOps).map some ∧ b.Size = (fifoRun 2 ringOps).length ∧
      (fifoRun 2 ringOps).length ≤ 2 ∧
      ∀ x, (fifoRun 2 ringOps).head? = some x → b.Front = some x :=
  ⟨by decide, C23_ring_buffer_is_bounded_fifo 2 (by decide) (by decide) ringOps (by decide)⟩

/-- C24, as stated, fails: `Pop` on the freshly constructed buffer of capacity 2 wraps
`m_Size` to 2^32 - 1, above the capacity. -/
theorem C24_pop_on_empty_breaks_invariant :
    (RingBuffer.construct 2 : RingBuffer Nat).run [RingOp.pop] =
      some (RingBuffer.construct 2 : RingBuffer Nat).Pop ∧
    (RingBuffer.construct 2 : RingBuffer Nat).Pop.m_Size = 4294967295 ∧
    ¬ (RingBuffer.construct 2 : RingBuffer Nat).Pop.Inv := by
  refine ⟨rfl, by decide, ?_⟩
  intro h
  exact absurd h.1 (by decide)

/-- C24, amended: for a capacity `0 < c` (a `uint32`) and every sequence of `Push`, `Pop`
and `Clear` calls from construction in which `Pop` is only called with `m_Size != 0`,
after every call the calls so far have returned and `Size <= Capacity`,
`ReadPos < Capacity`, `WritePos < Capacity`, `WritePos = (ReadPos + Size) mod Capacity`
hold; and a `Clear` called there terminates, leaving `Size = 0` and the invariant. -/
theorem C24_ring_invariant {α : Type} (c : Nat) (hc : 0 < c) (hU : c < U32)
    (ops : List (RingOp α))
    (hpop : (RingBuffer.construct c : RingBuffer α).popsOnNonEmpty ops = true) (n : Nat) :
    ∃ b, (RingBuffer.construct c : RingBuffer α).run (ops.take n) = some b ∧ b.Inv ∧
      b.m_Capacity = c ∧
      ∃ r, b.Clear = some r ∧ r.m_Size = 0 ∧ r.Inv := by
  obtain ⟨b, hb, hrep⟩ := RingBuffer.run_rep hc hU (ops.take n) (RingBuffer.construct c) []
    (RingBuffer.construct_rep c hc) (RingBuffer.popsOnNonEmpty_take ops _ n hpop)
  obtain ⟨r, hr, hrrep, hr0⟩ :=
    RingBuffer.clear_loop_rep hU b.m_Size b _ hrep (Nat.le_refl _)
  exact ⟨b, hb, hrep.inv hc, hrep.1, r, hr, hr0, hrrep.inv hc⟩

/-- C24 amended, on capacity 2: after the first three calls of push 1, push 2, push 3, pop
the invariant holds. -/
theorem C24_ring_invariant_witness :
    ∃ b, (RingBuffer.construct 2 : RingBuffer Nat).run (ringOps.take 3) = some b ∧ b.Inv ∧
      b.m_Capacity = 2 ∧
      ∃ r, b.Clear = some r ∧ r.m_Size = 0 ∧ r.Inv :=
  C24_ring_invariant 2 (by decide) (by decide) ringOps (by decide) 3

/-- C25 (the code departs from the claim): with every `recvfrom` delivering exactly what it
is asked for, `RecvLarge` with `dst_bytes = 300` asks for 256 bytes at offset 0 and again
for 256 bytes at offset 256 (512 bytes in all, past offset 300) and returns -1; with
`dst_bytes = 256` it asks once and returns 256. -/
theorem C25_recv_large_300 :
    RecvLarge exactRecv 300 300 = some (-1, [(0, 256), (256, 256)]) ∧
    RecvLarge exactRecv 256 256 = some (256, [(0, 256)]) := by
  exact ⟨by decide, by decide⟩

end CamVision
